import Mathlib

/-!
Verification of the Node.js load-balancer script generated by
`codegen/lb_codegen.py` (and its twin copy in `generate_config.py`).
The JavaScript routing/retry/classification core is shallowly embedded:
JS objects become Lean structures or association lists, JSON values become
the inductive `JVal`, JS `Map`s become association lists, `Math.random()`
and `JSON.parse` become explicit parameters, and timestamps (`Date.now()`)
become explicit `Int` arguments.  JSON numbers are modelled as integers
(`Int`); the embedded code only floors and compares them, so this is the
interesting fragment.  JS falsiness of the relevant values (empty string,
`0`, `null`/`undefined`) is spelled out at each use site.
-/

/-- JS `Array.isArray`-style character-list prefix test (used to model
`String.prototype.startsWith`). -/
def strStartsWith (s pre : String) : Bool :=
  List.isPrefixOf pre.data s.data

/-- Occurrence of `sub` inside `cs`, models `String.prototype.includes`. -/
def containsSubList (sub : List Char) : List Char → Bool
  | [] => sub.isEmpty
  | c :: cs => List.isPrefixOf sub (c :: cs) || containsSubList sub cs

/-- Models JS `s.includes(sub)`. -/
def strIncludes (s sub : String) : Bool :=
  containsSubList sub.data s.data

/-- Models JS `s.toLowerCase()` (ASCII case folding suffices for the
classifier's keyword matching). -/
def strToLower (s : String) : String :=
  ⟨s.data.map Char.toLower⟩

/-- Models JS `s.slice(0, n)`. -/
def strTake (s : String) (n : Nat) : String :=
  ⟨s.data.take n⟩

/-- Models JS `s.slice(n)`. -/
def strDrop (s : String) (n : Nat) : String :=
  ⟨s.data.drop n⟩

/-- JS whitespace for `String.prototype.trim` (ASCII part). -/
def isJsWhitespace (c : Char) : Bool :=
  c == ' ' || c == '\t' || c == '\n' || c == '\r' || c == '\x0b' || c == '\x0c'

/-- Models JS `s.trim()`. -/
def strTrim (s : String) : String :=
  ⟨((s.data.dropWhile isJsWhitespace).reverse.dropWhile isJsWhitespace).reverse⟩

/-- JSON/JS values as seen by the embedded script. -/
inductive JVal where
  | jnull : JVal
  | jbool : Bool → JVal
  | jnum : Int → JVal
  | jstr : String → JVal
  | jarr : List JVal → JVal
  | jobj : List (String × JVal) → JVal
deriving Repr

open JVal

/-- JS truthiness of a `JVal` (objects and arrays are always truthy). -/
def jvTruthy : JVal → Bool
  | jnull => false
  | jbool b => b
  | jnum n => n != 0
  | jstr s => s != ""
  | jarr _ => true
  | jobj _ => true

/-- First binding of `k` in an object's field list (JSON objects parsed by
`JSON.parse` have unique keys). -/
def jobjGet (fs : List (String × JVal)) (k : String) : Option JVal :=
  match fs with
  | [] => none
  | (k', v) :: rest => if k' == k then some v else jobjGet rest k

/-- JS property write `o[k] = v`: overwrite in place, else append. -/
def jobjSet (fs : List (String × JVal)) (k : String) (v : JVal) : List (String × JVal) :=
  if (jobjGet fs k).isSome then
    fs.map (fun p => if p.1 == k then (k, v) else p)
  else
    fs ++ [(k, v)]

/-- JS `delete o[k]`. -/
def jobjDelete (fs : List (String × JVal)) (k : String) : List (String × JVal) :=
  fs.filter (fun p => p.1 != k)

/-- JS property read `v.k` (non-objects yield `undefined`, i.e. `none`). -/
def jvGetField (v : JVal) (k : String) : Option JVal :=
  match v with
  | jobj fs => jobjGet fs k
  | _ => none

/-- Numeric parse of a digit list. -/
def digitsToNat : List Char → Option Nat
  | [] => none
  | cs => cs.foldl (fun acc c =>
      match acc with
      | none => none
      | some n => if c.isDigit then some (n * 10 + (c.toNat - '0'.toNat)) else none)
      (some 0)

/-- Models JS `Number(s)` on strings, restricted to optionally signed
integer literals (the embedded script only ever floors and compares
the result): blank strings coerce to `0`, non-numeric strings to `NaN`
(`none`). -/
def strToNumber (s : String) : Option Int :=
  let t := strTrim s
  match t.data with
  | [] => some 0
  | '-' :: rest => (digitsToNat rest).map (fun n => -(n : Int))
  | '+' :: rest => (digitsToNat rest).map (fun n => (n : Int))
  | cs => (digitsToNat cs).map (fun n => (n : Int))

/-- Models JS `Number(v)`.  `none` stands for `NaN`; `Number` of arrays
and plain objects is modelled as `NaN` (exact for objects; JS coerces a
few arrays to numbers, a corner never reached by the embedded logic). -/
def jsToNumber : JVal → Option Int
  | jnull => some 0
  | jbool b => some (if b then 1 else 0)
  | jnum n => some n
  | jstr s => strToNumber s
  | jarr _ => none
  | jobj _ => none

/-- `toPositiveInt` from the generated script: `Number(value)` (with
`undefined` → `NaN`), `Math.floor`, and a strict positivity gate. -/
def toPositiveInt (v : Option JVal) : Option Int :=
  match v with
  | none => none
  | some jv =>
    match jsToNumber jv with
    | none => none
    | some n => if n > 0 then some n else none

example : toPositiveInt (some (jnum 5)) = some 5 := by rfl
example : toPositiveInt (some (jnum 0)) = none := by rfl
example : toPositiveInt (some (jstr "12")) = some 12 := by rfl
example : toPositiveInt none = none := by rfl

/-! ## Generated-script configuration and route table -/

/-- Codegen-substituted tunables (`AUTH_COOLDOWN_MS`, …, `MAX_TARGET_RETRIES`,
`RETRY_AUTH_ON_5XX`); defaults come from `create_node_lb_script`. -/
structure Tunables where
  authCooldownMs : Int := 5 * 60 * 1000
  validationCooldownMs : Int := 12 * 60 * 60 * 1000
  transientCooldownMs : Int := 60 * 1000
  transientHeavyCooldownMs : Int := 2 * 60 * 1000
  signatureCooldownMs : Int := 2 * 60 * 1000
  quotaCooldownMs : Int := 12 * 60 * 60 * 1000
  maxTargetRetries : Int := 1
  retryAuthOn5xx : Bool := true
deriving Repr

/-- `MAX_STICKY_KEYS` (hardcoded in the generated script). -/
def MAX_STICKY_KEYS : Nat := 500

/-- `STICKY_ROUTE_TTL_MS`. -/
def STICKY_ROUTE_TTL_MS : Int := 7 * 24 * 60 * 60 * 1000

/-- `RESPONSE_PREVIEW_LIMIT` (non-verbose default). -/
def RESPONSE_PREVIEW_LIMIT : Nat := 500

/-- The per-target `params` bag recognized by the rewriter; each field is a
raw JSON value exactly as configured (`none` = key absent). -/
structure TargetParams where
  reasoning_effort : Option JVal := none
  thinking_budget_max : Option JVal := none
  max_tokens_max : Option JVal := none
  max_tokens_default : Option JVal := none
  thinking_level : Option JVal := none
deriving Repr

/-- One entry of a `ROUTES[alias].targets` array.  `inst` is the JS field
`instance` (a Lean keyword).  `params = none` covers both an absent and a
non-object `params` value (the script guards with
`typeof params === 'object' && !Array.isArray(params)`). -/
structure Target where
  inst : String
  target : String
  rewrite : String
  provider : Option String := none
  params : Option TargetParams := none
deriving Repr

/-- One `ROUTES[alias]` record: parallel `targets` / `weights` arrays. -/
structure Route where
  targets : List Target
  weights : List Int
deriving Repr

/-- The `ROUTES` table: alias → route (JS object modelled as an
association list). -/
abbrev Routes := List (String × Route)

/-- JS `ROUTES[model]` lookup. -/
def routesGet (routes : Routes) (model : String) : Option Route :=
  List.lookup model routes

/-- `getModelGroup` (verbatim branch order from the script). -/
def getModelGroup (rewrite : String) : String :=
  if rewrite == "" then ""
  else if strIncludes rewrite "gpt" then "gpt"
  else if strIncludes rewrite "claude" then "claude"
  else if strIncludes rewrite "gemini" then "gemini"
  else rewrite

/-- Startup construction of `SIGNATURE_GROUP_ROUTES`: walk `ROUTES` once,
indexing group → model names (deduplicated, insertion order). -/
def buildSignatureGroupRoutes (routes : Routes) : List (String × List String) :=
  routes.foldl
    (fun acc entry =>
      entry.2.targets.foldl
        (fun acc2 t =>
          let group := getModelGroup t.rewrite
          if group == "" then acc2
          else
            match List.lookup group acc2 with
            | none => acc2 ++ [(group, [entry.1])]
            | some models =>
              if entry.1 ∈ models then acc2
              else acc2.map (fun p => if p.1 == group then (p.1, p.2 ++ [entry.1]) else p))
        acc)
    []

/-! ## Target identity and the per-request tried set -/

/-- `targetIdentity`: `instance::target::rewrite`; empty only for a missing
target, which the call sites exclude. -/
def targetIdentity (t : Target) : String :=
  t.inst ++ "::" ++ t.target ++ "::" ++ t.rewrite

/-- The request's `_triedTargets` set of identities. -/
abbrev TriedSet := List String

/-- `markTriedTarget`: `Set.add` of the identity (a real target's identity
is never empty, so the `if (!key) return` guard never fires for them). -/
def markTriedTarget (tried : TriedSet) (t : Target) : TriedSet :=
  let key := targetIdentity t
  if key == "" then tried
  else if key ∈ tried then tried else tried ++ [key]

/-- `hasTriedTarget`. -/
def hasTriedTarget (tried : TriedSet) (t : Target) : Bool :=
  let key := targetIdentity t
  if key == "" then false else key ∈ tried

/-! ## Cooldowns and candidate assembly -/

/-- `targetCooldowns` map: cooldown key → `{ expiresAt }`. -/
abbrev Cooldowns := List (String × Int)

/-- `targetCooldownKey`. -/
def targetCooldownKey (model : String) (t : Target) : String :=
  model ++ "::" ++ t.inst ++ "::" ++ t.target ++ "::" ++ t.rewrite

/-- JS `Map.set`: overwrite in place or append. -/
def mapSet (m : List (String × Int)) (k : String) (v : Int) : List (String × Int) :=
  if (List.lookup k m).isSome then
    m.map (fun p => if p.1 == k then (k, v) else p)
  else
    m ++ [(k, v)]

/-- `setTargetCooldown` (the `!model || !target` guard is captured by the
caller-side checks; `cooldownMs <= 0` writes nothing). -/
def setTargetCooldown (cooldowns : Cooldowns) (now : Int) (model : String)
    (t : Target) (cooldownMs : Int) : Cooldowns :=
  if model == "" || cooldownMs ≤ 0 then cooldowns
  else mapSet cooldowns (targetCooldownKey model t) (now + cooldownMs)

/-- `isTargetCooling` (read-only part; the lazy delete of an expired entry
does not change the answer, so the map is left unchanged here). -/
def isTargetCooling (cooldowns : Cooldowns) (now : Int) (model : String) (t : Target) : Bool :=
  match List.lookup (targetCooldownKey model t) cooldowns with
  | none => false
  | some expiresAt => !(expiresAt ≤ now)

/-- `routeWeights[i] || 1`: a missing or `0` (falsy) weight defaults to 1;
any other number, negative ones included, is kept. -/
def jsWeightOr1 (ws : List Int) (i : Nat) : Int :=
  match ws.get? i with
  | none => 1
  | some w => if w == 0 then 1 else w

/-- Result record of `getRouteCandidates`. -/
structure Candidates where
  targets : List Target
  weights : List Int
  cooledOut : Bool
deriving Repr

/-- `getRouteCandidates`: filter out cooling targets (pushing the defaulted
weight in lockstep); when everything is cooling, fall back to the raw
target list. -/
def getRouteCandidates (cooldowns : Cooldowns) (now : Int) (route : Route)
    (model : String) : Candidates :=
  let picked : List (Nat × Target) := route.targets.enum.filter
    (fun p => !(isTargetCooling cooldowns now model p.2))
  if picked.isEmpty then
    { targets := route.targets
      weights := (List.range route.targets.length).map (jsWeightOr1 route.weights)
      cooledOut := true }
  else
    { targets := picked.map (·.2)
      weights := picked.map (fun p => jsWeightOr1 route.weights p.1)
      cooledOut := false }

/-! ## Selection -/

/-- The walk of `weightedRandom`'s loop: `if (random < weights[i]) return
targets[i]; random -= weights[i];`. -/
def weightedRandomWalk : List Target → List Int → Int → Option Target
  | t :: ts, w :: ws, random =>
    if random < w then some t else weightedRandomWalk ts ws (random - w)
  | _, _, _ => none

/-- `weightedRandom`.  `Math.random() * totalWeight` is abstracted as the
integer draw `random` (for the integer weights of the table, the loop's
comparisons against running sums depend only on the floor of the real
draw); after a fruitless walk the script returns `targets[0]`. -/
def weightedRandom (targets : List Target) (weights : List Int) (random : Int) :
    Option Target :=
  match weightedRandomWalk targets weights random with
  | some t => some t
  | none => targets.head?

/-- `selectHighestWeightTarget`: first index of maximal weight (strict
improvement only). -/
def selectHighestWeightTarget (targets : List Target) (weights : List Int) :
    Option Target :=
  match targets with
  | [] => none
  | _ =>
    let bestIdx := (List.range weights.length).foldl
      (fun best i =>
        match weights.get? i, weights.get? best with
        | some wi, some wb => if wi > wb then i else best
        | _, _ => best)
      0
    targets.get? bestIdx

/-- Request-side state consulted by the retry controller. -/
structure ReqState where
  model : String
  triedTargets : TriedSet
  retryCount : Int
  selectedTarget : Option Target
  signatureRetried : Bool
deriving Repr

/-- `pickRetryTarget`: among non-cooled candidates of the current model's
route, drop the currently selected identity and all tried identities, then
draw weighted-random.  `req.model = ""` models a falsy `req._model`. -/
def pickRetryTarget (routes : Routes) (cooldowns : Cooldowns) (now : Int)
    (random : Int) (req : ReqState) : Option Target :=
  if req.model == "" then none
  else
    match routesGet routes req.model with
    | none => none
    | some route =>
      let candidates := getRouteCandidates cooldowns now route req.model
      let next := (candidates.targets.zip candidates.weights).filter
        (fun p =>
          !(match req.selectedTarget with
            | some current => targetIdentity p.1 == targetIdentity current
            | none => false) &&
          !(hasTriedTarget req.triedTargets p.1))
      let nextWeights := next.map (fun p => if p.2 == 0 then 1 else p.2)
      if next.isEmpty then none
      else weightedRandom (next.map (·.1)) nextWeights random

/-! ## Response classification -/

/-- Parsed JSON or parse failure: `JSON.parse` is a parameter of the
embedding. -/
abbrev JsonParse := String → Option JVal

/-- `parseErrorSummary`: harvest error text fragments from a JSON error
payload, else fall back to a body preview; lowercase the result. -/
def parseErrorSummary (parse : JsonParse) (contentType body : String) : String :=
  let segments : List String :=
    if strIncludes contentType "application/json" then
      match parse body with
      | none => []
      | some payload =>
        let err := match jvGetField payload "error" with
          | some e => if e matches jnull then payload else e
          | none => payload
        match err with
        | jstr s => [s]
        | jobj fs =>
          let fields := ["message", "code", "type", "status", "reason"]
          let base := fields.foldl
            (fun acc f =>
              match jobjGet fs f with
              | some (jstr s) => acc ++ [s]
              | _ => acc)
            []
          match jobjGet fs "details" with
          | some (jarr details) =>
            details.foldl
              (fun acc d =>
                let withReason := match jvGetField d "reason" with
                  | some (jstr s) => acc ++ [s]
                  | _ => acc
                match jvGetField d "domain" with
                | some (jstr s) => withReason ++ [s]
                | _ => withReason)
              base
          | _ => base
        | _ => []
    else []
  let segments :=
    if segments.isEmpty && body != "" then [strTake body RESPONSE_PREVIEW_LIMIT]
    else segments
  strToLower (String.intercalate " " segments)

/-- Classification outcome `{kind, clearSticky, cooldownMs}`. -/
structure RouteAction where
  kind : String
  clearSticky : Bool
  cooldownMs : Int
deriving Repr

/-- The classifier's `isValidationError` test. -/
def isValidationErrorB (statusCode : Int) (summary : String) : Bool :=
  statusCode == 403 &&
    (strIncludes summary "validation_required" ||
     strIncludes summary "verify your account" ||
     strIncludes summary "validation_url")

/-- The classifier's `isQuotaError` test (the six-way quota union). -/
def isQuotaErrorB (summary : String) : Bool :=
  strIncludes summary "insufficient_quota" ||
  strIncludes summary "quota exceeded" ||
  strIncludes summary "quote_exceeded" ||
  strIncludes summary "subscription quota" ||
  strIncludes summary "quota limit" ||
  strIncludes summary "quota refresh"

/-- The classifier's `isAuthError` test. -/
def isAuthErrorB (statusCode : Int) (summary : String) : Bool :=
  strIncludes summary "auth_unavailable" ||
  strIncludes summary "auth_not_found" ||
  statusCode == 401 || statusCode == 403

/-- The classifier's `isSignatureError` test. -/
def isSignatureErrorB (hasThinkingSignature : Bool) (statusCode : Int)
    (summary : String) : Bool :=
  hasThinkingSignature &&
  strIncludes summary "signature" &&
  (statusCode == 400 || statusCode == 422 || statusCode == 500)

/-- The classifier's transient status list `[408, 429, 500, 502, 503, 504]`. -/
def isTransientStatusB (statusCode : Int) : Bool :=
  statusCode == 408 || statusCode == 429 || statusCode == 500 ||
  statusCode == 502 || statusCode == 503 || statusCode == 504

/-- `classifyResponse` (verbatim branch structure). -/
def classifyResponse (cfg : Tunables) (parse : JsonParse) (statusCode : Int)
    (contentType body : String) (hasThinkingSignature : Bool) : RouteAction :=
  if 200 ≤ statusCode && statusCode < 300 then
    { kind := "success", clearSticky := false, cooldownMs := 0 }
  else
    let summary := parseErrorSummary parse contentType body
    if isAuthErrorB statusCode summary then
      let cooldownMs :=
        if isValidationErrorB statusCode summary then cfg.validationCooldownMs
        else if isQuotaErrorB summary then cfg.quotaCooldownMs
        else cfg.authCooldownMs
      { kind := "auth", clearSticky := true, cooldownMs := cooldownMs }
    else if isSignatureErrorB hasThinkingSignature statusCode summary then
      { kind := "signature", clearSticky := true, cooldownMs := cfg.signatureCooldownMs }
    else if isTransientStatusB statusCode then
      { kind := "transient", clearSticky := true
        cooldownMs := if statusCode == 429 || statusCode == 503 then
            cfg.transientHeavyCooldownMs
          else cfg.transientCooldownMs }
    else if statusCode == 400 || statusCode == 422 then
      { kind := "client", clearSticky := false, cooldownMs := 0 }
    else
      { kind := "other", clearSticky := 500 ≤ statusCode
        cooldownMs := if 500 ≤ statusCode then cfg.transientCooldownMs else 0 }

/-! ## Thinking signatures and transparent signature recovery -/

/-- JS `s.indexOf(c)` over characters. -/
def charIndexOf (cs : List Char) (c : Char) : Int :=
  match cs with
  | [] => -1
  | x :: xs =>
    if x == c then 0
    else
      let r := charIndexOf xs c
      if r < 0 then -1 else r + 1

/-- `hasThinkingSignature`: some message content block has
`type == 'thinking'` and a non-empty string `signature`. -/
def hasThinkingSignature (body : JVal) : Bool :=
  match jvGetField body "messages" with
  | some (jarr messages) =>
    messages.any (fun message =>
      match jvGetField message "content" with
      | some (jarr blocks) =>
        blocks.any (fun block =>
          (match jvGetField block "type" with
           | some (jstr ty) => ty == "thinking"
           | _ => false) &&
          (match jvGetField block "signature" with
           | some (jstr s) => s != ""
           | _ => false))
      | _ => false)
  | _ => false

/-- `extractThinkingSignatureGroup`: first `thinking` block whose string
signature has `#` at a positive index yields the prefix before `#`. -/
def extractThinkingSignatureGroup (body : JVal) : Option String :=
  match jvGetField body "messages" with
  | some (jarr messages) =>
    messages.foldl
      (fun acc message =>
        match acc with
        | some g => some g
        | none =>
          match jvGetField message "content" with
          | some (jarr blocks) =>
            blocks.foldl
              (fun acc2 block =>
                match acc2 with
                | some g => some g
                | none =>
                  if (match jvGetField block "type" with
                      | some (jstr ty) => ty == "thinking"
                      | _ => false) then
                    match jvGetField block "signature" with
                    | some (jstr s) =>
                      let hashIdx := charIndexOf s.data '#'
                      if hashIdx > 0 then some (strTake s hashIdx.toNat) else none
                    | _ => none
                  else none)
              none
          | _ => none)
      none
  | _ => none

/-- The signature-recovery scan (body of the
`routeAction.kind === 'signature'` block): walk the group's model list,
taking the first model whose route yields a highest-weight candidate. -/
def signatureRecoveryPick (routes : Routes) (sigRoutes : List (String × List String))
    (cooldowns : Cooldowns) (now : Int) (sigGroup : String) :
    Option (String × Target) :=
  let recoveryModels := (List.lookup sigGroup sigRoutes).getD []
  recoveryModels.foldl
    (fun acc recoveryModel =>
      match acc with
      | some r => some r
      | none =>
        match routesGet routes recoveryModel with
        | none => none
        | some recoveryRoute =>
          let candidates := getRouteCandidates cooldowns now recoveryRoute recoveryModel
          match selectHighestWeightTarget candidates.targets candidates.weights with
          | some t => some (recoveryModel, t)
          | none => none)
    none

/-! ## The end-of-attempt retry decision -/

/-- `RETRYABLE_ROUTE_ACTIONS`. -/
def RETRYABLE_ROUTE_ACTIONS : List String := ["auth", "transient"]

/-- The `canRetry` conjunction computed in the `proxyRes` end handler. -/
def canRetry (cfg : Tunables) (isSSE : Bool) (method : String) (retryCount : Int)
    (kind : String) (statusCode : Int) (headersSent : Bool) : Bool :=
  !isSSE &&
  method == "POST" &&
  retryCount < cfg.maxTargetRetries &&
  (kind ∈ RETRYABLE_ROUTE_ACTIONS) &&
  (kind != "auth" ||
    statusCode == 401 ||
    statusCode == 403 ||
    (cfg.retryAuthOn5xx && statusCode ≥ 500)) &&
  !headersSent

/-- What the end handler does next with the finished attempt. -/
inductive NextAction where
  | respond : NextAction
  | retry : Target → NextAction
  | sigRecover : String → Target → NextAction
deriving Repr

/-- The end handler's cooldown write: a positive classified cooldown for a
selected target on a known model updates the cooldown map before the retry
scan runs. -/
def attemptCooldownUpdate (cooldowns : Cooldowns) (now : Int) (req : ReqState)
    (routeAction : RouteAction) : Cooldowns :=
  match req.selectedTarget with
  | some sel =>
    if routeAction.cooldownMs > 0 && req.model != "" then
      setTargetCooldown cooldowns now req.model sel routeAction.cooldownMs
    else cooldowns
  | none => cooldowns

/-- Body of the signature-recovery block: extract the group from the
request body and pick the recovery alias/target; when either step fails
the handler simply responds. -/
def signatureRecoveryAction (routes : Routes) (sigRoutes : List (String × List String))
    (cooldowns1 : Cooldowns) (now : Int) (requestBody : JVal) : NextAction :=
  match extractThinkingSignatureGroup requestBody with
  | some sigGroup =>
    match signatureRecoveryPick routes sigRoutes cooldowns1 now sigGroup with
    | some (recoveryModel, t) => NextAction.sigRecover recoveryModel t
    | none => NextAction.respond
  | none => NextAction.respond

/-- The retry/recovery decision of the `proxyRes` end handler: classify,
apply the cooldown (which the subsequent candidate scans observe), try an
ordinary retry, then the one-shot signature recovery, else respond.
Sticky-map bookkeeping is omitted: it feeds no branch of this decision. -/
def attemptEndDecision (cfg : Tunables) (parse : JsonParse) (routes : Routes)
    (sigRoutes : List (String × List String)) (cooldowns : Cooldowns) (now : Int)
    (random : Int) (req : ReqState) (requestBody : JVal) (isSSE : Bool)
    (method : String) (headersSent : Bool) (statusCode : Int)
    (contentType responseBody : String) (hasSig : Bool) : NextAction :=
  let routeAction := classifyResponse cfg parse statusCode contentType responseBody hasSig
  let cooldowns1 := attemptCooldownUpdate cooldowns now req routeAction
  let ordinary :=
    if canRetry cfg isSSE method req.retryCount routeAction.kind statusCode headersSent then
      pickRetryTarget routes cooldowns1 now random req
    else none
  match ordinary with
  | some t => NextAction.retry t
  | none =>
    if routeAction.kind == "signature" && !headersSent && !req.signatureRetried then
      signatureRecoveryAction routes sigRoutes cooldowns1 now requestBody
    else NextAction.respond

/-- `forwardRequestToTarget`'s effect on the per-request retry state:
select the target and mark its identity as tried before proxying. -/
def forwardRequestToTarget (req : ReqState) (t : Target) : ReqState :=
  { req with
    selectedTarget := some t
    triedTargets := markTriedTarget req.triedTargets t }

/-! ## Sticky-route capacity -/

/-- A sticky map value. -/
structure StickyEntry where
  inst : String
  target : String
  rewrite : String
  expiresAt : Int
deriving Repr

/-- The `stickyRoutes` map. -/
abbrev StickyMap := List (String × StickyEntry)

/-- JS `Map.set` on the sticky map. -/
def stickySet (m : StickyMap) (k : String) (v : StickyEntry) : StickyMap :=
  if (List.lookup k m).isSome then
    m.map (fun p => if p.1 == k then (k, v) else p)
  else
    m ++ [(k, v)]

/-- `Math.ceil(MAX_STICKY_KEYS * 0.2)` (evaluates to 100). -/
def STICKY_EVICT_COUNT : Nat := (MAX_STICKY_KEYS + 4) / 5

/-- `setStickyTarget`: when the map is at capacity and the key is new,
evict the `STICKY_EVICT_COUNT` earliest-expiring entries (stable ascending
sort on `expiresAt`, mirroring `entries.sort((a, b) => a[1].expiresAt -
b[1].expiresAt)`), then insert with a fresh TTL. -/
def setStickyTarget (m : StickyMap) (k : String) (t : Target) (now : Int) : StickyMap :=
  let m1 :=
    if MAX_STICKY_KEYS ≤ m.length && (List.lookup k m).isNone then
      let sorted := m.mergeSort (fun a b => a.2.expiresAt ≤ b.2.expiresAt)
      let victims := sorted.take STICKY_EVICT_COUNT
      victims.foldl (fun acc e => acc.filter (fun p => p.1 != e.1)) m
    else m
  stickySet m1 k
    { inst := t.inst, target := t.target, rewrite := t.rewrite
      expiresAt := now + STICKY_ROUTE_TTL_MS }

/-! ## Path normalization -/

/-- `normalizeProxyPath` (`!urlPath` is the empty string here). -/
def normalizeProxyPath (urlPath : String) : String :=
  if urlPath == "" then urlPath
  else if urlPath == "/v1/v1" then "/v1"
  else if strStartsWith urlPath "/v1/v1/" then "/v1" ++ strDrop urlPath 6
  else urlPath

/-! ## SSE usage extraction -/

/-- Split on `'\n'` like JS `String.prototype.split`. -/
def splitOnNl : List Char → List (List Char)
  | [] => [[]]
  | c :: cs =>
    let r := splitOnNl cs
    if c == '\n' then [] :: r
    else
      match r with
      | [] => [[c]]
      | h :: t => (c :: h) :: t

/-- The per-line step of `extractUsageFromSSE`: a `data: ` line whose
remainder parses and has a truthy `usage` yields that usage. -/
def sseLineUsage (parse : JsonParse) (line : List Char) : Option JVal :=
  if List.isPrefixOf "data: ".data line then
    match parse ⟨line.drop 6⟩ with
    | none => none
    | some data =>
      match jvGetField data "usage" with
      | some u => if jvTruthy u then some u else none
      | none => none
  else none

/-- Loop body of `extractUsageFromSSE`: a hit overrides the accumulator,
anything else leaves it untouched. -/
def sseAccum (parse : JsonParse) (usage : Option JVal) (line : List Char) : Option JVal :=
  match sseLineUsage parse line with
  | some u => some u
  | none => usage

/-- `extractUsageFromSSE`: fold over the lines, later hits overriding
earlier ones; parse failures leave the accumulator untouched. -/
def extractUsageFromSSE (parse : JsonParse) (chunks : String) : Option JVal :=
  (splitOnNl chunks.data).foldl (sseAccum parse) none

/-! ## Request rewriter -/

/-- The request-body fields touched by the rewriter; each holds the raw
JSON value (`none` = key absent).  Fields the rewriter never reads or
writes are dropped from the model: they pass through both applications
unchanged. -/
structure Payload where
  model : Option JVal := none
  reasoning_effort : Option JVal := none
  thinking : Option JVal := none
  max_tokens : Option JVal := none
  metadata : Option JVal := none
deriving Repr

/-- Rewriter step 1: a non-blank string `params.reasoning_effort`
overwrites the payload field with its trimmed value. -/
def reasoningEffortStep (params : TargetParams) (p : Payload) : Payload :=
  match params.reasoning_effort with
  | some (jstr s) =>
    if strTrim s != "" then { p with reasoning_effort := some (jstr (strTrim s)) } else p
  | _ => p

/-- Rewriter step 2: clamp `thinking.budget_tokens` down to
`thinking_budget_max` (only when the payload's `thinking` is a non-array
object and the budget is a positive integer exceeding the cap). -/
def thinkingBudgetClampStep (params : TargetParams) (p : Payload) : Payload :=
  match toPositiveInt params.thinking_budget_max with
  | none => p
  | some tbm =>
    match p.thinking with
    | some (jobj fs) =>
      match toPositiveInt (jobjGet fs "budget_tokens") with
      | some b =>
        if b > tbm then
          { p with thinking := some (jobj (jobjSet fs "budget_tokens" (jnum tbm))) }
        else p
      | none => p
    | _ => p

/-- Rewriter step 3: clamp `max_tokens` down to `max_tokens_max`, then
insert `max_tokens_default` when the *initial* value was not a positive
integer (both tests use the value read before the clamp). -/
def maxTokensStep (params : TargetParams) (p : Payload) : Payload :=
  let initialMaxTokens := toPositiveInt p.max_tokens
  let p1 :=
    match toPositiveInt params.max_tokens_max, initialMaxTokens with
    | some mm, some im => if im > mm then { p with max_tokens := some (jnum mm) } else p
    | _, _ => p
  match toPositiveInt params.max_tokens_default, initialMaxTokens with
  | some d, none => { p1 with max_tokens := some (jnum d) }
  | _, _ => p1

/-- Rewriter step 4: force `thinking.budget_tokens < max_tokens`: a budget
at or above the final `max_tokens` becomes `max_tokens - 1`, or is deleted
when `max_tokens ≤ 1`. -/
def budgetVsMaxStep (p : Payload) : Payload :=
  match toPositiveInt p.max_tokens with
  | none => p
  | some m =>
    match p.thinking with
    | some (jobj fs) =>
      match toPositiveInt (jobjGet fs "budget_tokens") with
      | some b =>
        if b ≥ m then
          if m ≤ 1 then
            { p with thinking := some (jobj (jobjDelete fs "budget_tokens")) }
          else
            { p with thinking := some (jobj (jobjSet fs "budget_tokens" (jnum (m - 1)))) }
        else p
      | none => p
    | _ => p

/-- Steps 1–3 of the rewriter, in source order. -/
def preBudgetSteps (params : TargetParams) (p : Payload) : Payload :=
  maxTokensStep params (thinkingBudgetClampStep params (reasoningEffortStep params p))

/-- `applyTargetParamsToPayload`: the four steps in source order (skipped
entirely when `params` is absent or not a plain object). -/
def applyTargetParamsToPayload (p : Payload) (target : Target) : Payload :=
  match target.params with
  | none => p
  | some params => budgetVsMaxStep (preBudgetSteps params p)

/-- The rewritten model name: `target.rewrite` when truthy and different
from the request's model, with the optional `(thinking_level)` suffix when
the name carries no parenthesized suffix yet. -/
def rewrittenModelFor (reqModel : String) (target : Target) : String :=
  let base := if target.rewrite != "" && target.rewrite != reqModel then
      target.rewrite
    else reqModel
  match target.params with
  | some params =>
    match params.thinking_level with
    | some (jstr lvl) =>
      if strTrim lvl != "" && !(strIncludes base "(") then
        base ++ "(" ++ strTrim lvl ++ ")"
      else base
    | _ => base
  | none => base

/-- `cloneRequestPayloadForTarget` on a parsed JSON body: deep-clone (pure
values need no copy), substitute `model` when the request carried one,
apply the parameter overrides, and strip `metadata` for MiniMax targets. -/
def cloneRequestPayloadForTarget (reqModel : String) (target : Target)
    (body : Payload) : Payload :=
  let p := body
  let p := if reqModel != "" then
      { p with model := some (jstr (rewrittenModelFor reqModel target)) }
    else p
  let p := applyTargetParamsToPayload p target
  if target.provider == some "minimax" then { p with metadata := none } else p

/-! ## Model router -/

/-- One normalized threshold rule (name and raw `target_model`; the
condition list is abstracted behind the `ruleMatches` parameter of
`resolveModelViaRouter`, which stands for `evaluateModelRouterRule`). -/
structure RouterRule where
  name : String
  target_model : String
deriving Repr

/-- A matched category (the result of `resolveModelViaCategories` when
`matched` is true). -/
structure RouterCategoryHit where
  category_name : String
  target_model : String
deriving Repr

/-- `MODEL_ROUTER_CONFIG` fields consulted by `resolveModelViaRouter`. -/
structure RouterCfg where
  enabled : Bool
  shadow_only : Bool
  activation_models : List String
  default_model : String := ""
  rules : List RouterRule := []
deriving Repr

/-- The record returned by `resolveModelViaRouter` (log-only fields
dropped). -/
structure RouterResult where
  enabled : Bool
  activated : Bool
  shadow_only : Bool
  decision : String
  requested_model : Option String
  suggested_model : Option String
  resolved_model : Option String
  applied : Bool
deriving Repr

/-- JS `s || null` for strings. -/
def strOrNull (s : String) : Option String :=
  if s == "" then none else some s

/-- The threshold-rules loop: first rule with a non-blank `target_model`
that exists in `ROUTES` and matches. -/
def findRuleHit (routesHas : String → Bool) (ruleMatches : RouterRule → Bool) :
    List RouterRule → Option RouterRule
  | [] => none
  | r :: rs =>
    let tm := strTrim r.target_model
    if tm == "" then findRuleHit routesHas ruleMatches rs
    else if !(routesHas tm) then findRuleHit routesHas ruleMatches rs
    else if ruleMatches r then some { name := r.name, target_model := tm }
    else findRuleHit routesHas ruleMatches rs

/-- The category → threshold-rules → default-model suggestion cascade of
`resolveModelViaRouter` (activated, non-shadow-aware part): yields the
suggested model with its decision tag. -/
def routerSuggestion (cfg : RouterCfg) (routesHas : String → Bool)
    (catResult : Option RouterCategoryHit) (ruleMatches : RouterRule → Bool)
    (requested : String) : String × String :=
  let afterCategories : Option (String × String) :=
    match catResult with
    | some cat =>
      if routesHas cat.target_model then
        some (cat.target_model, "category_hit_" ++ cat.category_name)
      else none
    | none => none
  let afterRules : Option (String × String) :=
    match afterCategories with
    | some hit => some hit
    | none =>
      match findRuleHit routesHas ruleMatches cfg.rules with
      | some r => some (r.target_model, "rule_hit_" ++ r.name)
      | none => none
  match afterRules with
  | some hit => hit
  | none =>
    let defaultModel := strTrim cfg.default_model
    if defaultModel != "" then
      if routesHas defaultModel then (defaultModel, "default_model")
      else (requested, "default_model_not_found")
    else (requested, "no_rule")

/-- The tail of `resolveModelViaRouter`: `applied` / `resolved_model`
packaging from the suggestion. -/
def routerFinish (shadowOnly : Bool) (requested suggestedModel decision : String) :
    RouterResult :=
  let applied := !shadowOnly && suggestedModel != requested
  let resolvedModel := if applied then suggestedModel else requested
  { enabled := true, activated := true, shadow_only := shadowOnly
    decision := decision
    requested_model := strOrNull requested
    suggested_model := strOrNull suggestedModel
    resolved_model := strOrNull resolvedModel
    applied := applied }

/-- JS string coercion guard `typeof requestedModel === 'string' ?
requestedModel : ''`. -/
def requestedStr (requestedModel : Option String) : String :=
  match requestedModel with
  | some s => s
  | none => ""

/-- The `disabled` early return of `resolveModelViaRouter`. -/
def routerDisabledResult (requested : String) : RouterResult :=
  { enabled := false, activated := false, shadow_only := false
    decision := "disabled"
    requested_model := strOrNull requested
    suggested_model := strOrNull requested
    resolved_model := strOrNull requested
    applied := false }

/-- The `not_activated` early return of `resolveModelViaRouter`. -/
def routerNotActivatedResult (shadowOnly : Bool) (requested : String) : RouterResult :=
  { enabled := true, activated := false, shadow_only := shadowOnly
    decision := "not_activated"
    requested_model := strOrNull requested
    suggested_model := strOrNull requested
    resolved_model := strOrNull requested
    applied := false }

/-- `activation_models.length > 0 && !activation_models.includes(requested)`. -/
def routerActivationBlocked (cfg : RouterCfg) (requested : String) : Bool :=
  !cfg.activation_models.isEmpty && requested ∉ cfg.activation_models

/-- `resolveModelViaRouter`: disabled / not-activated early returns, then
categories (already evaluated into `catResult`), threshold rules, default
model, and the shadow-aware `applied` / `resolved_model` computation. -/
def resolveModelViaRouter (cfg : RouterCfg) (routesHas : String → Bool)
    (catResult : Option RouterCategoryHit) (ruleMatches : RouterRule → Bool)
    (requestedModel : Option String) : RouterResult :=
  if !cfg.enabled then
    routerDisabledResult (requestedStr requestedModel)
  else if routerActivationBlocked cfg (requestedStr requestedModel) then
    routerNotActivatedResult cfg.shadow_only (requestedStr requestedModel)
  else
    routerFinish cfg.shadow_only (requestedStr requestedModel)
      (routerSuggestion cfg routesHas catResult ruleMatches
        (requestedStr requestedModel)).1
      (routerSuggestion cfg routesHas catResult ruleMatches
        (requestedStr requestedModel)).2

/-- The request handler's use of the router result: rewrite the routed
model only when `enabled && activated && applied && resolved_model` are
all truthy. -/
def applyRouterResolution (r : RouterResult) (model : String) : String :=
  match r.resolved_model with
  | some resolved =>
    if r.enabled && r.activated && r.applied && resolved != "" then resolved else model
  | none => model

/-! ## C4: path-normalization idempotence -/

example : normalizeProxyPath "/v1/v1/models" = "/v1/models" := by decide
example : normalizeProxyPath "/v1/v1" = "/v1" := by decide
example : normalizeProxyPath "/v1/v1/v1/x" = "/v1/v1/x" := by decide

/-- C4 counterexample: on the triple-prefixed path `/v1/v1/v1/x` the first
normalization leaves `/v1/v1/x`, which a second normalization collapses
further, so `normalizeProxyPath` is not idempotent. -/
theorem C4_normalizeProxyPath_not_idempotent :
    normalizeProxyPath (normalizeProxyPath "/v1/v1/v1/x") ≠
      normalizeProxyPath "/v1/v1/v1/x" := by
  decide

/-- Collapsing step of the third branch on an explicit `/v1/v1/`-prefixed
character list. -/
theorem normalizeProxyPath_collapse (t : List Char) :
    normalizeProxyPath ⟨'/' :: 'v' :: '1' :: '/' :: 'v' :: '1' :: '/' ::t⟩ = ⟨'/' :: 'v' :: '1' :: '/' ::t⟩ := by
  unfold normalizeProxyPath strStartsWith strDrop
  simp [String.ext_iff]

/-- A `/v1/`-prefixed path whose tail is neither `v1` nor `v1/…` is a
fixed point of `normalizeProxyPath`. -/
theorem normalizeProxyPath_fixed (t : List Char) (hne : t ≠ ['v', '1'])
    (hpre : ¬ List.isPrefixOf ['v', '1', '/'] t = true) :
    normalizeProxyPath ⟨'/' :: 'v' :: '1' :: '/' ::t⟩ = ⟨'/' :: 'v' :: '1' :: '/' ::t⟩ := by
  rw [List.isPrefixOf_iff_prefix] at hpre
  unfold normalizeProxyPath strStartsWith strDrop
  simp [String.ext_iff, hne]
  intro h
  exact absurd h hpre

/-- C4 amended: `normalizeProxyPath` is idempotent on every path except
`/v1/v1/v1` itself and paths beginning with `/v1/v1/v1/` — exactly the
inputs where one collapse still leaves a collapsible `/v1/v1` prefix, as
exhibited by the counterexample. -/
theorem C4_normalizeProxyPath_idempotent_amended (p : String)
    (hne : p ≠ "/v1/v1/v1")
    (hpre : ¬ strStartsWith p "/v1/v1/v1/" = true) :
    normalizeProxyPath (normalizeProxyPath p) = normalizeProxyPath p := by
  by_cases h0 : p = ""
  · subst h0; decide
  by_cases h1 : p = "/v1/v1"
  · subst h1; decide
  by_cases h2 : strStartsWith p "/v1/v1/" = true
  · have hp : ∃ t, "/v1/v1/".data ++ t = p.data := by
      have := List.isPrefixOf_iff_prefix.mp h2
      exact this
    obtain ⟨t, ht⟩ := hp
    have hpmk : p = ⟨'/' :: 'v' :: '1' :: '/' :: 'v' :: '1' :: '/' ::t⟩ := by
      apply String.ext
      rw [← ht]; rfl
    subst hpmk
    rw [normalizeProxyPath_collapse]
    apply normalizeProxyPath_fixed
    · intro hc
      subst hc
      exact hne (by rfl)
    · intro hc
      apply hpre
      unfold strStartsWith
      rw [List.isPrefixOf_iff_prefix] at hc ⊢
      obtain ⟨u, hu⟩ := hc
      exact ⟨u, by rw [← hu]; rfl⟩
  · have e0 : (p == "") = false := by simp [h0]
    have e1 : (p == "/v1/v1") = false := by simp [h1]
    have e2 : strStartsWith p "/v1/v1/" = false := by
      simpa using h2
    have hfix : normalizeProxyPath p = p := by
      unfold normalizeProxyPath
      rw [e0, e1, e2]
      simp
    rw [hfix, hfix]

/-- C4 witness: the amended idempotence at the ordinary double-prefixed
path `/v1/v1/messages`. -/
theorem C4_normalizeProxyPath_idempotent_witness :
    normalizeProxyPath (normalizeProxyPath "/v1/v1/messages") =
      normalizeProxyPath "/v1/v1/messages" :=
  C4_normalizeProxyPath_idempotent_amended "/v1/v1/messages" (by decide) (by decide)

/-! ## C10: SSE usage extraction -/

/-- `getLast?` of a cons, phrased through `Option.or`. -/
theorem getLast?_cons_or {β : Type} (u : β) (xs : List β) (acc : Option β) :
    ((u :: xs).getLast?).or acc = (xs.getLast?).or (some u) := by
  cases xs with
  | nil => rfl
  | cons v vs =>
    rw [List.getLast?_cons_cons]
    cases h : (v :: vs).getLast? with
    | none => simp at h
    | some w => rfl

/-- The override fold of `extractUsageFromSSE` computes the last hit (or
keeps the initial accumulator). -/
theorem foldl_sseAccum (parse : JsonParse) (l : List (List Char)) (acc : Option JVal) :
    l.foldl (sseAccum parse) acc
      = ((l.filterMap (sseLineUsage parse)).getLast?).or acc := by
  induction l generalizing acc with
  | nil => rfl
  | cons a l ih =>
    rw [List.foldl_cons, List.filterMap_cons]
    cases hfa : sseLineUsage parse a with
    | none =>
      simp only [hfa]
      have hb : sseAccum parse acc a = acc := by
        unfold sseAccum; rw [hfa]
      rw [hb]
      exact ih acc
    | some u =>
      simp only [hfa]
      have hb : sseAccum parse acc a = some u := by
        unfold sseAccum; rw [hfa]
      rw [hb, ih (some u), getLast?_cons_or]

/-- C10: `extractUsageFromSSE` returns the usage of the *last* `data: `
line whose remainder parses with a truthy `usage` field (later lines
override earlier ones), and `null` when no line qualifies; lines that
fail the prefix test, fail to parse, or lack a truthy usage are skipped
without aborting the scan. -/
theorem C10_extractUsageFromSSE_last_hit (parse : JsonParse) (chunks : String) :
    extractUsageFromSSE parse chunks =
      ((splitOnNl chunks.data).filterMap (sseLineUsage parse)).getLast? := by
  unfold extractUsageFromSSE
  exact (foldl_sseAccum parse (splitOnNl chunks.data) none).trans Option.or_none



/-! ## C9: router `applied` flag and shadow mode -/

/-- `s || null` is injective on strings. -/
theorem strOrNull_inj {a b : String} : strOrNull a = strOrNull b ↔ a = b := by
  unfold strOrNull
  by_cases ha : a = ""
  · by_cases hb : b = ""
    · simp [ha, hb]
    · simp [ha, hb]
      exact fun h => hb h.symm
  · by_cases hb : b = ""
    · simp [ha, hb]
    · simp [ha, hb]

/-- A result with `applied = false` never rewrites the routed model. -/
theorem applyRouterResolution_not_applied (r : RouterResult) (h : r.applied = false)
    (model0 : String) : applyRouterResolution r model0 = model0 := by
  unfold applyRouterResolution
  cases hres : r.resolved_model with
  | none => rfl
  | some resolved => simp [h]

/-- `routerFinish` computes `applied` exactly as `!shadow && suggested ≠
requested`, read back through the `|| null` record fields. -/
theorem routerFinish_applied_iff (sh : Bool) (req sug dec : String) :
    (routerFinish sh req sug dec).applied = true ↔
      ((routerFinish sh req sug dec).shadow_only = false ∧
        (routerFinish sh req sug dec).suggested_model ≠
          (routerFinish sh req sug dec).requested_model) := by
  unfold routerFinish
  simp [Bool.and_eq_true, Bool.not_eq_true', bne_iff_ne, strOrNull_inj]

/-- Every router resolution is one of the three branch shapes. -/
theorem resolveModelViaRouter_shape (cfg : RouterCfg) (routesHas : String → Bool)
    (catResult : Option RouterCategoryHit) (ruleMatches : RouterRule → Bool)
    (requestedModel : Option String) :
    resolveModelViaRouter cfg routesHas catResult ruleMatches requestedModel
        = routerDisabledResult (requestedStr requestedModel) ∨
      resolveModelViaRouter cfg routesHas catResult ruleMatches requestedModel
        = routerNotActivatedResult cfg.shadow_only (requestedStr requestedModel) ∨
      ∃ sug dec,
        resolveModelViaRouter cfg routesHas catResult ruleMatches requestedModel
          = routerFinish cfg.shadow_only (requestedStr requestedModel) sug dec := by
  unfold resolveModelViaRouter
  by_cases hen : (!cfg.enabled) = true
  · rw [if_pos hen]
    exact Or.inl rfl
  · rw [if_neg hen]
    by_cases hact : routerActivationBlocked cfg (requestedStr requestedModel) = true
    · rw [if_pos hact]
      exact Or.inr (Or.inl rfl)
    · rw [if_neg hact]
      exact Or.inr (Or.inr ⟨_, _, rfl⟩)

/-- C9: for every router resolution, `applied` is true exactly when
`shadow_only` is false and the suggested model differs from the requested
alias; when `shadow_only` is set the resolved model stays equal to the
requested alias and the request handler leaves the routed model
unchanged. -/
theorem C9_router_applied_iff_and_shadow_noop (cfg : RouterCfg)
    (routesHas : String → Bool) (catResult : Option RouterCategoryHit)
    (ruleMatches : RouterRule → Bool) (requestedModel : Option String)
    (model0 : String) :
    ((resolveModelViaRouter cfg routesHas catResult ruleMatches requestedModel).applied
        = true ↔
      ((resolveModelViaRouter cfg routesHas catResult ruleMatches
            requestedModel).shadow_only = false ∧
        (resolveModelViaRouter cfg routesHas catResult ruleMatches
            requestedModel).suggested_model ≠
          (resolveModelViaRouter cfg routesHas catResult ruleMatches
            requestedModel).requested_model)) ∧
    ((resolveModelViaRouter cfg routesHas catResult ruleMatches
          requestedModel).shadow_only = true →
      (resolveModelViaRouter cfg routesHas catResult ruleMatches
          requestedModel).resolved_model =
        (resolveModelViaRouter cfg routesHas catResult ruleMatches
          requestedModel).requested_model ∧
      applyRouterResolution
          (resolveModelViaRouter cfg routesHas catResult ruleMatches requestedModel)
          model0 = model0) := by
  obtain h | h | ⟨sug, dec, h⟩ :=
    resolveModelViaRouter_shape cfg routesHas catResult ruleMatches requestedModel
  · rw [h]
    constructor
    · simp [routerDisabledResult]
    · intro hsh
      simp [routerDisabledResult] at hsh
  · rw [h]
    constructor
    · simp [routerNotActivatedResult]
    · intro hsh
      exact ⟨rfl, applyRouterResolution_not_applied _ rfl model0⟩
  · rw [h]
    constructor
    · exact routerFinish_applied_iff _ _ _ _
    · intro hsh
      have hsh2 : cfg.shadow_only = true := hsh
      rw [hsh2]
      exact ⟨rfl, applyRouterResolution_not_applied _ rfl model0⟩

/-- C9 witness: a shadow-mode configuration with a differing suggestion
records the suggestion but resolves to the requested alias and leaves the
routed model untouched. -/
theorem C9_router_witness :
    (resolveModelViaRouter
        { enabled := true, shadow_only := true, activation_models := ["auto"] }
        (fun m => m == "fast") (some { category_name := "short", target_model := "fast" })
        (fun _ => false) (some "auto")).resolved_model =
      (resolveModelViaRouter
        { enabled := true, shadow_only := true, activation_models := ["auto"] }
        (fun m => m == "fast") (some { category_name := "short", target_model := "fast" })
        (fun _ => false) (some "auto")).requested_model ∧
    applyRouterResolution
        (resolveModelViaRouter
          { enabled := true, shadow_only := true, activation_models := ["auto"] }
          (fun m => m == "fast") (some { category_name := "short", target_model := "fast" })
          (fun _ => false) (some "auto")) "auto" = "auto" :=
  (C9_router_applied_iff_and_shadow_noop
    { enabled := true, shadow_only := true, activation_models := ["auto"] }
    (fun m => m == "fast") (some { category_name := "short", target_model := "fast" })
    (fun _ => false) (some "auto") "auto").2 rfl

/-! ## C2: quota classification -/

/-- C2 counterexample: a 429 response whose error summary matches the
quota union (`quota exceeded`) is classified `transient` with the heavy
transient cooldown — not `auth` with `QUOTA_COOLDOWN` — because the quota
test is only consulted inside the auth branch, which 429 does not enter. -/
theorem C2_quota_not_auth_counterexample :
    isQuotaErrorB (parseErrorSummary (fun _ => none) "text/plain" "quota exceeded") = true ∧
    (classifyResponse {} (fun _ => none) 429 "text/plain" "quota exceeded" false).kind
      = "transient" ∧
    (classifyResponse {} (fun _ => none) 429 "text/plain" "quota exceeded" false).cooldownMs
      = ({} : Tunables).transientHeavyCooldownMs := by
  decide

/-- C2 amended: a non-2xx response whose summary matches the quota union
gets kind `auth` with cooldown `QUOTA_COOLDOWN` *provided* the auth test
also fires (status 401/403 or an `auth_unavailable`/`auth_not_found`
summary) and the 403-validation test does not; quota summaries outside
the auth branch (e.g. with status 429) do not reach the quota cooldown. -/
theorem C2_quota_classification_amended (cfg : Tunables) (parse : JsonParse)
    (statusCode : Int) (contentType body : String) (hasSig : Bool)
    (hs : (200 ≤ statusCode && statusCode < 300) = false)
    (hq : isQuotaErrorB (parseErrorSummary parse contentType body) = true)
    (ha : isAuthErrorB statusCode (parseErrorSummary parse contentType body) = true)
    (hv : isValidationErrorB statusCode (parseErrorSummary parse contentType body) = false) :
    classifyResponse cfg parse statusCode contentType body hasSig
      = { kind := "auth", clearSticky := true, cooldownMs := cfg.quotaCooldownMs } := by
  simp [classifyResponse, hs, ha, hq, hv]

/-- C2 witness: a 401 with an `insufficient_quota` summary is classified
`auth` with the quota cooldown. -/
theorem C2_quota_classification_witness :
    classifyResponse {} (fun _ => none) 401 "text/plain" "insufficient_quota" false
      = { kind := "auth", clearSticky := true
          cooldownMs := ({} : Tunables).quotaCooldownMs } :=
  C2_quota_classification_amended {} (fun _ => none) 401 "text/plain"
    "insufficient_quota" false (by decide) (by decide) (by decide) (by decide)

/-! ## C3: the retry decision -/

/-- The `canRetry` conjunction, unfolded into the spec's reading: with the
classified kind restricted to `auth`/`transient`, the code's
`kind !== 'auth' || …` disjunct is exactly "status 401/403, or transient,
or `RETRY_AUTH_ON_5XX` and a 5xx". -/
theorem canRetry_iff (cfg : Tunables) (isSSE : Bool) (method : String)
    (retryCount : Int) (kind : String) (statusCode : Int) (headersSent : Bool) :
    canRetry cfg isSSE method retryCount kind statusCode headersSent = true ↔
      (isSSE = false ∧ method = "POST" ∧ retryCount < cfg.maxTargetRetries ∧
       (kind = "auth" ∨ kind = "transient") ∧ headersSent = false ∧
       (statusCode = 401 ∨ statusCode = 403 ∨ kind = "transient" ∨
        (cfg.retryAuthOn5xx = true ∧ 500 ≤ statusCode))) := by
  have htr : kind = "transient" → ¬ kind = "auth" := by
    intro h
    rw [h]
    decide
  simp only [canRetry, RETRYABLE_ROUTE_ACTIONS, Bool.and_eq_true, Bool.or_eq_true,
    Bool.not_eq_true', bne_iff_ne, beq_iff_eq, decide_eq_true_eq, List.mem_cons,
    List.not_mem_nil, or_false, ne_eq]
  constructor <;> intro h <;> tauto

/-- The signature-recovery block never produces an ordinary retry. -/
theorem signatureRecoveryAction_ne_retry (routes : Routes)
    (sigRoutes : List (String × List String)) (cooldowns1 : Cooldowns) (now : Int)
    (requestBody : JVal) (t : Target) :
    signatureRecoveryAction routes sigRoutes cooldowns1 now requestBody ≠
      NextAction.retry t := by
  unfold signatureRecoveryAction
  cases hg : extractThinkingSignatureGroup requestBody with
  | none => simp
  | some g =>
    cases hr : signatureRecoveryPick routes sigRoutes cooldowns1 now g with
    | none => simp [hr]
    | some p =>
      cases p with
      | mk a b => simp [hr]

/-- The end handler retries on target `t` exactly when `canRetry` holds
and the retry scan (run against the cooldown-updated map) yields `t`. -/
theorem attemptEndDecision_retry_iff (cfg : Tunables) (parse : JsonParse)
    (routes : Routes) (sigRoutes : List (String × List String))
    (cooldowns : Cooldowns) (now random : Int) (req : ReqState)
    (requestBody : JVal) (isSSE : Bool) (method : String) (headersSent : Bool)
    (statusCode : Int) (contentType responseBody : String) (hasSig : Bool)
    (t : Target) :
    attemptEndDecision cfg parse routes sigRoutes cooldowns now random req
        requestBody isSSE method headersSent statusCode contentType responseBody
        hasSig = NextAction.retry t ↔
      (canRetry cfg isSSE method req.retryCount
          (classifyResponse cfg parse statusCode contentType responseBody hasSig).kind
          statusCode headersSent = true ∧
        pickRetryTarget routes
            (attemptCooldownUpdate cooldowns now req
              (classifyResponse cfg parse statusCode contentType responseBody hasSig))
            now random req = some t) := by
  unfold attemptEndDecision
  cases hc : canRetry cfg isSSE method req.retryCount
      (classifyResponse cfg parse statusCode contentType responseBody hasSig).kind
      statusCode headersSent with
  | false =>
    simp only [hc, Bool.false_eq_true, if_false]
    constructor
    · intro h
      exfalso
      revert h
      split
      · exact signatureRecoveryAction_ne_retry _ _ _ _ _ _
      · simp
    · rintro ⟨hfalse, _⟩
      exact absurd hfalse (by simp)
  | true =>
    simp only [hc, if_true]
    cases hp : pickRetryTarget routes
        (attemptCooldownUpdate cooldowns now req
          (classifyResponse cfg parse statusCode contentType responseBody hasSig))
        now random req with
    | some u => simp
    | none =>
      simp only [hp]
      constructor
      · intro h
        exfalso
        revert h
        split
        · exact signatureRecoveryAction_ne_retry _ _ _ _ _ _
        · simp
      · rintro ⟨_, hfalse⟩
        exact absurd hfalse (by simp)

/-- A demo target behind alias `m`. -/
def tgtA : Target :=
  { inst := "cpA", target := "http://127.0.0.1:8101", rewrite := "claude-sonnet" }

/-- A second demo target behind alias `m`. -/
def tgtB : Target :=
  { inst := "cpB", target := "http://127.0.0.1:8102", rewrite := "claude-opus" }

/-- A single-target route table. -/
def demoRoutesOne : Routes := [("m", { targets := [tgtA], weights := [1] })]

/-- Request state right after the first attempt at `tgtA`. -/
def reqAfterA : ReqState :=
  { model := "m", triedTargets := [targetIdentity tgtA], retryCount := 0
    selectedTarget := some tgtA, signatureRetried := false }

/-- C3 counterexample: a non-SSE POST 401 classified `auth`, with
`retry_count < MAX_TARGET_RETRIES` and headers unsent — every condition of
the claim — is *not* retried when the alias has no untried sibling target:
the handler responds instead.  The claim's "iff" lacks the availability of
an untried candidate. -/
theorem C3_all_conditions_but_no_retry_counterexample :
    (classifyResponse {} (fun _ => none) 401 "text/plain" "auth_unavailable" false).kind
        = "auth" ∧
    (0 : Int) < ({} : Tunables).maxTargetRetries ∧
    attemptEndDecision {} (fun _ => none) demoRoutesOne
        (buildSignatureGroupRoutes demoRoutesOne) [] 0 0 reqAfterA (jobj [])
        false "POST" false 401 "text/plain" "auth_unavailable" false
      = NextAction.respond := by
  refine ⟨by decide, by decide, ?h⟩
  rfl

/-- C3 amended: a completed attempt is retried on target `t` iff the
response is not SSE, the method is POST, `retry_count < MAX_TARGET_RETRIES`,
the classified kind is `auth` or `transient`, headers are unsent, either
status ∈ {401,403} or the kind is `transient` or `RETRY_AUTH_ON_5XX`
with status ≥ 500 — *and additionally* the retry scan over the
cooldown-updated map yields the untried sibling `t`. -/
theorem C3_retry_decision_amended (cfg : Tunables) (parse : JsonParse)
    (routes : Routes) (sigRoutes : List (String × List String))
    (cooldowns : Cooldowns) (now random : Int) (req : ReqState)
    (requestBody : JVal) (isSSE : Bool) (method : String) (headersSent : Bool)
    (statusCode : Int) (contentType responseBody : String) (hasSig : Bool)
    (t : Target) :
    attemptEndDecision cfg parse routes sigRoutes cooldowns now random req
        requestBody isSSE method headersSent statusCode contentType responseBody
        hasSig = NextAction.retry t ↔
      (isSSE = false ∧ method = "POST" ∧ req.retryCount < cfg.maxTargetRetries ∧
       ((classifyResponse cfg parse statusCode contentType responseBody hasSig).kind
           = "auth" ∨
        (classifyResponse cfg parse statusCode contentType responseBody hasSig).kind
           = "transient") ∧
       headersSent = false ∧
       (statusCode = 401 ∨ statusCode = 403 ∨
        (classifyResponse cfg parse statusCode contentType responseBody hasSig).kind
           = "transient" ∨
        (cfg.retryAuthOn5xx = true ∧ 500 ≤ statusCode)) ∧
       pickRetryTarget routes
           (attemptCooldownUpdate cooldowns now req
             (classifyResponse cfg parse statusCode contentType responseBody hasSig))
           now random req = some t) := by
  rw [attemptEndDecision_retry_iff, canRetry_iff]
  tauto

/-! ## C1: tried-target bookkeeping -/

/-- A real target's identity `inst::url::rewrite` is never the empty
string. -/
theorem targetIdentity_ne_empty (t : Target) : targetIdentity t ≠ "" := by
  unfold targetIdentity
  intro h
  have hd := congrArg String.data h
  simp [String.data_append] at hd

/-- The roulette walk only returns elements of its target list. -/
theorem weightedRandomWalk_mem (ts : List Target) (ws : List Int) (r : Int)
    (t : Target) (h : weightedRandomWalk ts ws r = some t) : t ∈ ts := by
  induction ts generalizing ws r with
  | nil => simp [weightedRandomWalk] at h
  | cons a as ih =>
    cases ws with
    | nil => simp [weightedRandomWalk] at h
    | cons w wslist =>
      unfold weightedRandomWalk at h
      by_cases hr : r < w
      · rw [if_pos hr] at h
        exact (Option.some_inj.mp h) ▸ List.mem_cons_self a as
      · rw [if_neg hr] at h
        exact List.mem_cons_of_mem a (ih wslist (r - w) h)

/-- `weightedRandom` only returns elements of its target list. -/
theorem weightedRandom_mem (ts : List Target) (ws : List Int) (random : Int)
    (t : Target) (h : weightedRandom ts ws random = some t) : t ∈ ts := by
  unfold weightedRandom at h
  cases hw : weightedRandomWalk ts ws random with
  | some u =>
    rw [hw] at h
    exact (Option.some_inj.mp h) ▸ weightedRandomWalk_mem ts ws random u hw
  | none =>
    rw [hw] at h
    exact List.mem_of_mem_head? h

/-- The ordinary retry scan never returns a tried identity, nor the
currently selected one. -/
theorem pickRetryTarget_not_tried (routes : Routes) (cooldowns : Cooldowns)
    (now random : Int) (req : ReqState) (t : Target)
    (h : pickRetryTarget routes cooldowns now random req = some t) :
    targetIdentity t ∉ req.triedTargets ∧
    (∀ current, req.selectedTarget = some current →
      targetIdentity t ≠ targetIdentity current) := by
  unfold pickRetryTarget at h
  by_cases hm : (req.model == "") = true
  · rw [if_pos hm] at h
    exact absurd h (by simp)
  · rw [if_neg hm] at h
    cases hroute : routesGet routes req.model with
    | none => rw [hroute] at h; exact absurd h (by simp)
    | some route =>
      rw [hroute] at h
      dsimp only at h
      split at h
      · exact absurd h (by simp)
      · have hmem := weightedRandom_mem _ _ _ _ h
        rw [List.mem_map] at hmem
        obtain ⟨p, hpmem, hpt⟩ := hmem
        rw [List.mem_filter] at hpmem
        obtain ⟨hzip, hpred⟩ := hpmem
        rw [Bool.and_eq_true, Bool.not_eq_true', Bool.not_eq_true'] at hpred
        obtain ⟨hcur, htried⟩ := hpred
        subst hpt
        constructor
        · intro hmem2
          have hht : hasTriedTarget req.triedTargets p.1 = true := by
            unfold hasTriedTarget
            rw [if_neg (by simp [targetIdentity_ne_empty p.1])]
            exact decide_eq_true hmem2
          rw [htried] at hht
          exact Bool.false_ne_true hht
        · intro current hcur2
          rw [hcur2] at hcur
          intro heq
          rw [heq] at hcur
          simp at hcur

/-- `forwardRequestToTarget` records the selected identity in
`tried_targets` before the attempt is proxied. -/
theorem forwardRequestToTarget_marks (req : ReqState) (t : Target) :
    targetIdentity t ∈ (forwardRequestToTarget req t).triedTargets := by
  have hne : (targetIdentity t == "") = false := by
    simp [targetIdentity_ne_empty t]
  unfold forwardRequestToTarget markTriedTarget
  dsimp only
  rw [hne]
  simp only [Bool.false_eq_true, if_false]
  by_cases hx : targetIdentity t ∈ req.triedTargets
  · rw [if_pos hx]
    exact hx
  · rw [if_neg hx]
    exact List.mem_append_right _ (List.mem_singleton_self _)

/-- Body of a request carrying the thinking signature `claude#abc`. -/
def sigBody : JVal :=
  jobj [("messages", jarr [jobj [("content",
    jarr [jobj [("type", jstr "thinking"), ("signature", jstr "claude#abc")]])]])]

/-- C1 counterexample: after a signature-classified 400 on the only (and
already tried) target of alias `m`, the transparent signature recovery
selects that same target again — its identity is in `tried_targets`, yet
the handler forwards to it, because the recovery scan never consults the
tried set. -/
theorem C1_sig_recovery_reuses_tried_target_counterexample :
    attemptEndDecision {} (fun _ => none) demoRoutesOne
        (buildSignatureGroupRoutes demoRoutesOne) [] 0 0 reqAfterA sigBody
        false "POST" false 400 "text/plain" "invalid signature" true
      = NextAction.sigRecover "m" tgtA ∧
    targetIdentity tgtA ∈ reqAfterA.triedTargets := by
  exact ⟨rfl, by decide⟩

/-- C1 amended: every identity selected for an attempt is added to
`tried_targets` before the attempt is proxied, and the *ordinary* retry
scan never returns a tried identity nor the currently selected one —
but the signature-recovery path gives no such guarantee (see the
counterexample). -/
theorem C1_tried_targets_amended (routes : Routes) (cooldowns : Cooldowns)
    (now random : Int) (req : ReqState) (t : Target)
    (h : pickRetryTarget routes cooldowns now random req = some t) :
    targetIdentity t ∉ req.triedTargets ∧
    (∀ current, req.selectedTarget = some current →
      targetIdentity t ≠ targetIdentity current) ∧
    (∀ (req2 : ReqState) (u : Target),
      targetIdentity u ∈ (forwardRequestToTarget req2 u).triedTargets) := by
  obtain ⟨h1, h2⟩ := pickRetryTarget_not_tried routes cooldowns now random req t h
  exact ⟨h1, h2, forwardRequestToTarget_marks⟩

/-- Two-target route table for alias `m`. -/
def demoRoutesTwo : Routes := [("m", { targets := [tgtA, tgtB], weights := [1, 1] })]

/-- C1 witness: with a second untried sibling available, the retry scan
returns it, and its identity is untried. -/
theorem C1_tried_targets_witness :
    targetIdentity tgtB ∉ reqAfterA.triedTargets ∧
    targetIdentity tgtA ∈ (forwardRequestToTarget reqAfterA tgtA).triedTargets :=
  ⟨(C1_tried_targets_amended demoRoutesTwo [] 0 0 reqAfterA tgtB (by rfl)).1,
   (C1_tried_targets_amended demoRoutesTwo [] 0 0 reqAfterA tgtB (by rfl)).2.2
     reqAfterA tgtA⟩

/-! ## C7: weights and weighted random -/

/-- The roulette walk with positive weights and a draw inside the total
weight lands on the first index whose cumulative weight exceeds the
draw. -/
theorem weightedRandomWalk_roulette (ts : List Target) (ws : List Int) (r : Int)
    (hlen : ts.length = ws.length) (hpos : ∀ w ∈ ws, 0 < w) (hr0 : 0 ≤ r)
    (hrs : r < ws.sum) :
    ∃ i, ∃ hi : i < ts.length,
      weightedRandomWalk ts ws r = some (ts.get ⟨i, hi⟩) ∧
      r < (ws.take (i + 1)).sum ∧
      ∀ j < i, (ws.take (j + 1)).sum ≤ r := by
  induction ts generalizing ws r with
  | nil =>
    cases ws with
    | nil => simp at hrs; omega
    | cons w ws2 => simp at hlen
  | cons a as ih =>
    cases ws with
    | nil => simp at hlen
    | cons w ws2 =>
      by_cases hcase : r < w
      · refine ⟨0, by simp, ?_, ?_, ?_⟩
        · unfold weightedRandomWalk
          rw [if_pos hcase]
          rfl
        · simpa using hcase
        · intro j hj
          omega
      · have hlen2 : as.length = ws2.length := by simpa using hlen
        have hpos2 : ∀ x ∈ ws2, 0 < x := fun x hx => hpos x (List.mem_cons_of_mem w hx)
        have hw : 0 < w := hpos w (List.mem_cons_self w ws2)
        have hr02 : 0 ≤ r - w := by omega
        have hrs2 : r - w < ws2.sum := by
          rw [List.sum_cons] at hrs
          omega
        obtain ⟨i, hi, hwalk, hub, hlb⟩ := ih ws2 (r - w) hlen2 hpos2 hr02 hrs2
        have hlt : i + 1 < (a :: as).length := by simpa using Nat.succ_lt_succ hi
        refine ⟨i + 1, hlt, ?_, ?_, ?_⟩
        · unfold weightedRandomWalk
          rw [if_neg hcase]
          exact hwalk
        · rw [List.take_succ_cons, List.sum_cons]
          omega
        · intro j hj
          cases j with
          | zero =>
            simp only [List.take_succ_cons, List.take_zero, List.sum_cons, List.sum_nil]
            omega
          | succ j2 =>
            rw [List.take_succ_cons, List.sum_cons]
            have := hlb j2 (by omega)
            omega

/-- With no target cooling, candidate assembly returns the raw target list
and the `|| 1`-defaulted weights positionally. -/
theorem getRouteCandidates_no_cooling (cooldowns : Cooldowns) (now : Int)
    (route : Route) (model : String)
    (hnc : ∀ t ∈ route.targets, isTargetCooling cooldowns now model t = false)
    (hne : route.targets ≠ []) :
    getRouteCandidates cooldowns now route model =
      { targets := route.targets
        weights := (List.range route.targets.length).map (jsWeightOr1 route.weights)
        cooledOut := false } := by
  unfold getRouteCandidates
  have hfilter : route.targets.enum.filter
      (fun p => !(isTargetCooling cooldowns now model p.2)) = route.targets.enum := by
    apply List.filter_eq_self.mpr
    intro p hp
    have hmem : p.2 ∈ route.targets := by
      rw [← List.enum_map_snd route.targets]
      exact List.mem_map_of_mem Prod.snd hp
    rw [hnc p.2 hmem]
    rfl
  rw [hfilter]
  have henne : route.targets.enum.isEmpty = false := by
    rw [Bool.eq_false_iff]
    intro hc
    rw [List.isEmpty_iff] at hc
    have := congrArg (List.map Prod.snd) hc
    rw [List.enum_map_snd] at this
    exact hne (by simpa using this)
  simp only [henne, Bool.false_eq_true, if_false]
  congr 1
  · exact List.enum_map_snd route.targets
  · rw [show (fun p : Nat × Target => jsWeightOr1 route.weights p.1)
        = (jsWeightOr1 route.weights) ∘ Prod.fst from rfl]
    rw [← List.map_map, List.enum_map_fst]

/-- C7 counterexample: a configured weight of `-2` is *not* treated as
weight 1 — the JS `|| 1` only catches falsy values.  Candidate assembly
keeps `-2`, and with draw `0` the roulette then picks the second target,
whereas the defaulted weights `[1, 3]` would pick the first. -/
theorem C7_negative_weight_not_defaulted_counterexample :
    (getRouteCandidates [] 0 { targets := [tgtA, tgtB], weights := [-2, 3] } "m").weights
      = [-2, 3] ∧
    weightedRandom [tgtA, tgtB] [-2, 3] 0 = some tgtB ∧
    weightedRandom [tgtA, tgtB] [1, 3] 0 = some tgtA := by
  exact ⟨rfl, rfl, rfl⟩

/-- C7 amended: a missing or `0` weight defaults to 1 (negative weights
pass through as configured, per the counterexample); with positive
weights and a draw in `[0, sum)`, `weightedRandom` is the classical
roulette wheel, returning the first target whose cumulative weight
exceeds the draw; and a single-target pool always yields that target, for
any weight and any draw. -/
theorem C7_weighted_selection_amended :
    (∀ (ws : List Int) (i : Nat), (ws.get? i = none ∨ ws.get? i = some 0) →
      jsWeightOr1 ws i = 1) ∧
    (∀ (cooldowns : Cooldowns) (now : Int) (route : Route) (model : String),
      (∀ t ∈ route.targets, isTargetCooling cooldowns now model t = false) →
      route.targets ≠ [] →
      getRouteCandidates cooldowns now route model =
        { targets := route.targets
          weights := (List.range route.targets.length).map (jsWeightOr1 route.weights)
          cooledOut := false }) ∧
    (∀ (ts : List Target) (ws : List Int) (random : Int),
      ts.length = ws.length → (∀ w ∈ ws, 0 < w) → 0 ≤ random → random < ws.sum →
      ∃ i, ∃ hi : i < ts.length,
        weightedRandom ts ws random = some (ts.get ⟨i, hi⟩) ∧
        random < (ws.take (i + 1)).sum ∧
        ∀ j < i, (ws.take (j + 1)).sum ≤ random) ∧
    (∀ (t : Target) (w random : Int), weightedRandom [t] [w] random = some t) := by
  refine ⟨?_, getRouteCandidates_no_cooling, ?_, ?_⟩
  · intro ws i hcase
    unfold jsWeightOr1
    rcases hcase with hnone | hzero
    · rw [hnone]
    · rw [hzero]
      rfl
  · intro ts ws random hlen hpos hr0 hrs
    obtain ⟨i, hi, hwalk, hub, hlb⟩ :=
      weightedRandomWalk_roulette ts ws random hlen hpos hr0 hrs
    refine ⟨i, hi, ?_, hub, hlb⟩
    unfold weightedRandom
    rw [hwalk]
  · intro t w random
    unfold weightedRandom weightedRandomWalk
    by_cases h : random < w
    · rw [if_pos h]
    · rw [if_neg h]
      rfl

/-- C7 witness: the defaulting conjunct at a missing weight, and the
single-target conjunct at weight `-5`, draw `7`. -/
theorem C7_weighted_selection_witness :
    jsWeightOr1 [] 0 = 1 ∧ weightedRandom [tgtA] [-5] 7 = some tgtA :=
  ⟨C7_weighted_selection_amended.1 [] 0 (Or.inl rfl),
   C7_weighted_selection_amended.2.2.2 tgtA (-5) 7⟩

/-! ## C8: sticky-map capacity -/

/-- `Map.set` grows the sticky map by at most one entry. -/
theorem stickySet_length_le (m : StickyMap) (k : String) (v : StickyEntry) :
    (stickySet m k v).length ≤ m.length + 1 := by
  unfold stickySet
  split
  · rw [List.length_map]
    omega
  · rw [List.length_append]
    simp

/-- `Map.set` on a present key keeps the size unchanged. -/
theorem stickySet_length_of_mem (m : StickyMap) (k : String) (v : StickyEntry)
    (h : (List.lookup k m).isSome = true) : (stickySet m k v).length = m.length := by
  unfold stickySet
  rw [if_pos h, List.length_map]

/-- Deleting the key of a present entry strictly shrinks the map. -/
theorem filter_out_key_length (m : StickyMap) (e : String × StickyEntry)
    (he : e ∈ m) : (m.filter (fun p => p.1 != e.1)).length + 1 ≤ m.length := by
  have hlt : (m.filter (fun p => p.1 != e.1)).length < m.length := by
    apply List.length_filter_lt_length_iff_exists.mpr
    exact ⟨e, he, by simp⟩
  omega

/-- Deleting a list of present entries with pairwise-distinct keys shrinks
the map by at least the number of entries. -/
theorem foldl_delete_length (es : List (String × StickyEntry)) (m : StickyMap)
    (hnodup : (es.map Prod.fst).Nodup) (hmem : ∀ e ∈ es, e ∈ m) :
    (es.foldl (fun acc e => acc.filter (fun p => p.1 != e.1)) m).length
      ≤ m.length - es.length := by
  induction es generalizing m with
  | nil => simp
  | cons e es ih =>
    rw [List.foldl_cons]
    have hkey : e.1 ∉ es.map Prod.fst := by
      rw [List.map_cons] at hnodup
      exact (List.nodup_cons.mp hnodup).1
    have hnodup2 : (es.map Prod.fst).Nodup := by
      rw [List.map_cons] at hnodup
      exact (List.nodup_cons.mp hnodup).2
    have hmem2 : ∀ e2 ∈ es, e2 ∈ m.filter (fun p => p.1 != e.1) := by
      intro e2 he2
      rw [List.mem_filter]
      refine ⟨hmem e2 (List.mem_cons_of_mem e he2), ?_⟩
      have : e2.1 ≠ e.1 := by
        intro hc
        exact hkey (hc ▸ List.mem_map_of_mem Prod.fst he2)
      simpa using this
    have h1 := filter_out_key_length m e (hmem e (List.mem_cons_self e es))
    have h2 := ih (m.filter (fun p => p.1 != e.1)) hnodup2 hmem2
    simp only [List.length_cons]
    omega

/-- C8: starting from a well-formed sticky map (distinct keys) within the
`MAX_STICKY_KEYS` cap, any `setStickyTarget` call leaves the map within
the cap: an insertion of a new key at capacity first evicts the
`ceil(20%)` earliest-expiring entries, and overwrites / under-capacity
insertions stay within the cap trivially. -/
theorem C8_setStickyTarget_capacity (m : StickyMap) (k : String) (t : Target)
    (now : Int) (hnodup : (m.map Prod.fst).Nodup)
    (hle : m.length ≤ MAX_STICKY_KEYS) :
    (setStickyTarget m k t now).length ≤ MAX_STICKY_KEYS := by
  unfold setStickyTarget
  by_cases hcond : (decide (MAX_STICKY_KEYS ≤ m.length) && (List.lookup k m).isNone) = true
  · rw [if_pos hcond]
    dsimp only
    rw [Bool.and_eq_true, decide_eq_true_eq] at hcond
    obtain ⟨hge, hnone⟩ := hcond
    have hlen500 : m.length = MAX_STICKY_KEYS := le_antisymm hle hge
    have hperm := List.mergeSort_perm m
      (fun a b => a.2.expiresAt ≤ b.2.expiresAt)
    have hsortlen := hperm.length_eq
    have hperm_keys := hperm.map Prod.fst
    have hsortnodup : ((m.mergeSort
        (fun a b => a.2.expiresAt ≤ b.2.expiresAt)).map Prod.fst).Nodup :=
      (hperm_keys.nodup_iff).mpr hnodup
    have hvnodup : (((m.mergeSort
        (fun a b => a.2.expiresAt ≤ b.2.expiresAt)).take STICKY_EVICT_COUNT).map
          Prod.fst).Nodup :=
      hsortnodup.sublist ((List.take_sublist _ _).map _)
    have hvmem : ∀ e ∈ (m.mergeSort
        (fun a b => a.2.expiresAt ≤ b.2.expiresAt)).take STICKY_EVICT_COUNT, e ∈ m :=
      fun e he => hperm.mem_iff.mp (List.mem_of_mem_take he)
    have hfold := foldl_delete_length _ m hvnodup hvmem
    have hvlen : ((m.mergeSort
        (fun a b => a.2.expiresAt ≤ b.2.expiresAt)).take STICKY_EVICT_COUNT).length
          = STICKY_EVICT_COUNT := by
      rw [List.length_take, hsortlen, hlen500]
      decide
    have hs := stickySet_length_le
      (((m.mergeSort (fun a b => a.2.expiresAt ≤ b.2.expiresAt)).take
        STICKY_EVICT_COUNT).foldl (fun acc e => acc.filter (fun p => p.1 != e.1)) m)
      k { inst := t.inst, target := t.target, rewrite := t.rewrite
          expiresAt := now + STICKY_ROUTE_TTL_MS }
    rw [hvlen] at hfold
    rw [hlen500] at hfold
    have hnum : MAX_STICKY_KEYS - STICKY_EVICT_COUNT + 1 ≤ MAX_STICKY_KEYS := by decide
    omega
  · rw [if_neg hcond]
    dsimp only
    by_cases hk : (List.lookup k m).isSome = true
    · rw [stickySet_length_of_mem m k _ hk]
      exact hle
    · have hnone : (List.lookup k m).isNone = true := by
        cases hx : List.lookup k m
        · rfl
        · rw [hx] at hk
          exact absurd rfl hk
      have hlt : ¬ MAX_STICKY_KEYS ≤ m.length := by
        intro hc
        exact hcond (by rw [Bool.and_eq_true, decide_eq_true_eq]; exact ⟨hc, hnone⟩)
      have := stickySet_length_le m k
        { inst := t.inst, target := t.target, rewrite := t.rewrite
          expiresAt := now + STICKY_ROUTE_TTL_MS }
      omega

/-- C8 witness: inserting into an empty sticky map stays within the cap. -/
theorem C8_setStickyTarget_capacity_witness :
    (setStickyTarget [] "sess::m" tgtA 0).length ≤ MAX_STICKY_KEYS :=
  C8_setStickyTarget_capacity [] "sess::m" tgtA 0 (by simp) (by decide)

/-! ## C5: the thinking-budget vs max-tokens adjustment -/

/-- A `toPositiveInt` hit is strictly positive. -/
theorem toPositiveInt_pos {v : Option JVal} {n : Int} (h : toPositiveInt v = some n) :
    0 < n := by
  cases v with
  | none => simp [toPositiveInt] at h
  | some jv =>
    unfold toPositiveInt at h
    dsimp only at h
    cases hj : jsToNumber jv with
    | none => rw [hj] at h; simp at h
    | some n2 =>
      rw [hj] at h
      dsimp only at h
      by_cases hp : n2 > 0
      · rw [if_pos hp] at h
        have : n2 = n := by simpa using h
        omega
      · rw [if_neg hp] at h
        simp at h

/-- `toPositiveInt` of a positive integer JSON number. -/
theorem toPositiveInt_jnum (n : Int) (hn : 0 < n) :
    toPositiveInt (some (jnum n)) = some n := by
  unfold toPositiveInt jsToNumber
  dsimp only
  rw [if_pos hn]

/-- Reading back a replaced key. -/
theorem jobjGet_map_replace (fs : List (String × JVal)) (k : String) (v : JVal) :
    jobjGet (fs.map (fun p => if p.1 == k then (k, v) else p)) k
      = if (jobjGet fs k).isSome = true then some v else none := by
  induction fs with
  | nil => simp [jobjGet]
  | cons e rest ih =>
    obtain ⟨k1, v1⟩ := e
    rw [List.map_cons]
    by_cases hk : (k1 == k) = true
    · dsimp only
      rw [if_pos hk]
      unfold jobjGet
      rw [if_pos (by simp), if_pos hk]
      simp
    · dsimp only
      rw [if_neg hk]
      unfold jobjGet
      rw [if_neg hk, if_neg hk, ih]

/-- Reading back an appended key that was absent. -/
theorem jobjGet_append_of_none (fs : List (String × JVal)) (k : String) (v : JVal)
    (h : jobjGet fs k = none) : jobjGet (fs ++ [(k, v)]) k = some v := by
  induction fs with
  | nil => simp [jobjGet]
  | cons e rest ih =>
    obtain ⟨k1, v1⟩ := e
    simp only [jobjGet] at h
    rw [List.cons_append]
    simp only [jobjGet]
    by_cases hk : (k1 == k) = true
    · rw [if_pos hk] at h
      exact absurd h (by simp)
    · rw [if_neg hk] at h ⊢
      exact ih h

/-- `o[k] = v` then reading `o[k]` yields `v`. -/
theorem jobjGet_set_self (fs : List (String × JVal)) (k : String) (v : JVal) :
    jobjGet (jobjSet fs k v) k = some v := by
  unfold jobjSet
  by_cases h : (jobjGet fs k).isSome = true
  · rw [if_pos h, jobjGet_map_replace, if_pos h]
  · rw [if_neg h]
    apply jobjGet_append_of_none
    cases hx : jobjGet fs k
    · rfl
    · rw [hx] at h
      exact absurd rfl h

/-- `delete o[k]` then reading `o[k]` yields `undefined`. -/
theorem jobjGet_delete_self (fs : List (String × JVal)) (k : String) :
    jobjGet (jobjDelete fs k) k = none := by
  unfold jobjDelete
  induction fs with
  | nil => simp [jobjGet]
  | cons e rest ih =>
    obtain ⟨k1, v1⟩ := e
    rw [List.filter_cons]
    by_cases hk : (k1 == k) = true
    · have hne : ((k1, v1).1 != k) = false := by simpa using hk
      rw [hne]
      simpa using ih
    · have hne : ((k1, v1).1 != k) = true := by simpa using hk
      rw [hne, if_pos rfl]
      simp only [jobjGet]
      rw [if_neg hk]
      exact ih

/-- Step 1 touches only `reasoning_effort`. -/
theorem reasoningEffortStep_frame (params : TargetParams) (p : Payload) :
    (reasoningEffortStep params p).thinking = p.thinking ∧
    (reasoningEffortStep params p).max_tokens = p.max_tokens ∧
    (reasoningEffortStep params p).model = p.model ∧
    (reasoningEffortStep params p).metadata = p.metadata := by
  unfold reasoningEffortStep
  split
  · split
    · exact ⟨rfl, rfl, rfl, rfl⟩
    · exact ⟨rfl, rfl, rfl, rfl⟩
  · exact ⟨rfl, rfl, rfl, rfl⟩

/-- Step 2 touches only `thinking`. -/
theorem thinkingBudgetClampStep_frame (params : TargetParams) (p : Payload) :
    (thinkingBudgetClampStep params p).reasoning_effort = p.reasoning_effort ∧
    (thinkingBudgetClampStep params p).max_tokens = p.max_tokens ∧
    (thinkingBudgetClampStep params p).model = p.model ∧
    (thinkingBudgetClampStep params p).metadata = p.metadata := by
  unfold thinkingBudgetClampStep
  split
  · exact ⟨rfl, rfl, rfl, rfl⟩
  · split
    · split
      · split
        · exact ⟨rfl, rfl, rfl, rfl⟩
        · exact ⟨rfl, rfl, rfl, rfl⟩
      · exact ⟨rfl, rfl, rfl, rfl⟩
    · exact ⟨rfl, rfl, rfl, rfl⟩

/-- Step 3 touches only `max_tokens`. -/
theorem maxTokensStep_frame (params : TargetParams) (p : Payload) :
    (maxTokensStep params p).reasoning_effort = p.reasoning_effort ∧
    (maxTokensStep params p).thinking = p.thinking ∧
    (maxTokensStep params p).model = p.model ∧
    (maxTokensStep params p).metadata = p.metadata := by
  refine ⟨?_, ?_, ?_, ?_⟩ <;>
    (unfold maxTokensStep
     dsimp only
     split <;> first
      | rfl
      | (split <;> first
          | rfl
          | (split <;> rfl)))

/-- Step 4 touches only `thinking`. -/
theorem budgetVsMaxStep_frame (p : Payload) :
    (budgetVsMaxStep p).reasoning_effort = p.reasoning_effort ∧
    (budgetVsMaxStep p).max_tokens = p.max_tokens ∧
    (budgetVsMaxStep p).model = p.model ∧
    (budgetVsMaxStep p).metadata = p.metadata := by
  unfold budgetVsMaxStep
  split
  · exact ⟨rfl, rfl, rfl, rfl⟩
  · split
    · split
      · split
        · split
          · exact ⟨rfl, rfl, rfl, rfl⟩
          · exact ⟨rfl, rfl, rfl, rfl⟩
        · exact ⟨rfl, rfl, rfl, rfl⟩
      · exact ⟨rfl, rfl, rfl, rfl⟩
    · exact ⟨rfl, rfl, rfl, rfl⟩

/-- C5: once the max-tokens clamps leave a positive-integer `max_tokens`
`m` and the `thinking` object carries a positive-integer `budget_tokens`
`b`, the final rewriter step ensures `budget_tokens < max_tokens`: when
`b ≥ m` the budget becomes `m - 1`, unless `m ≤ 1` in which case the
field is deleted; when `b < m` (in particular `b = m - 1`) the object is
left untouched; `max_tokens` itself is not modified by this step. -/
theorem C5_thinking_budget_adjustment (target : Target) (params : TargetParams) (p : Payload)
    (fs : List (String × JVal)) (b m : Int)
    (hparams : target.params = some params)
    (hthink : (preBudgetSteps params p).thinking = some (jobj fs))
    (hbudget : toPositiveInt (jobjGet fs "budget_tokens") = some b)
    (hmax : toPositiveInt (preBudgetSteps params p).max_tokens = some m) :
    ∃ fs2, (applyTargetParamsToPayload p target).thinking = some (jobj fs2) ∧
      (applyTargetParamsToPayload p target).max_tokens
        = (preBudgetSteps params p).max_tokens ∧
      (∀ v, jobjGet fs2 "budget_tokens" = some v →
        ∃ b2, toPositiveInt (some v) = some b2 ∧ b2 < m) ∧
      (m ≤ b → m ≤ 1 → fs2 = jobjDelete fs "budget_tokens") ∧
      (m ≤ b → 1 < m → fs2 = jobjSet fs "budget_tokens" (jnum (m - 1))) ∧
      (b < m → fs2 = fs) := by
  have happ0 : applyTargetParamsToPayload p target
      = budgetVsMaxStep (preBudgetSteps params p) := by
    unfold applyTargetParamsToPayload
    rw [hparams]
  by_cases hge : b ≥ m
  · by_cases hm1 : m ≤ 1
    · have happ : applyTargetParamsToPayload p target
          = { preBudgetSteps params p with
              thinking := some (jobj (jobjDelete fs "budget_tokens")) } := by
        rw [happ0]
        unfold budgetVsMaxStep
        rw [hmax]
        dsimp only
        rw [hthink]
        dsimp only
        rw [hbudget]
        dsimp only
        rw [if_pos hge, if_pos hm1]
      refine ⟨jobjDelete fs "budget_tokens", by rw [happ], by rw [happ], ?_, ?_, ?_, ?_⟩
      · intro v hv
        rw [jobjGet_delete_self] at hv
        exact absurd hv (by simp)
      · intro _ _
        rfl
      · intro _ hc
        omega
      · intro hc
        omega
    · have hm2 : 1 < m := by omega
      have happ : applyTargetParamsToPayload p target
          = { preBudgetSteps params p with
              thinking := some (jobj (jobjSet fs "budget_tokens" (jnum (m - 1)))) } := by
        rw [happ0]
        unfold budgetVsMaxStep
        rw [hmax]
        dsimp only
        rw [hthink]
        dsimp only
        rw [hbudget]
        dsimp only
        rw [if_pos hge, if_neg hm1]
      refine ⟨jobjSet fs "budget_tokens" (jnum (m - 1)), by rw [happ], by rw [happ],
        ?_, ?_, ?_, ?_⟩
      · intro v hv
        rw [jobjGet_set_self] at hv
        refine ⟨m - 1, ?_, by omega⟩
        rw [← Option.some_inj.mp hv] at *
        exact toPositiveInt_jnum (m - 1) (by omega)
      · intro _ hc
        omega
      · intro _ _
        rfl
      · intro hc
        omega
  · have hlt : b < m := by omega
    have happ : applyTargetParamsToPayload p target = preBudgetSteps params p := by
      rw [happ0]
      unfold budgetVsMaxStep
      rw [hmax]
      dsimp only
      rw [hthink]
      dsimp only
      rw [hbudget]
      dsimp only
      rw [if_neg hge]
    refine ⟨fs, by rw [happ, hthink], by rw [happ], ?_, ?_, ?_, fun _ => rfl⟩
    · intro v hv
      rw [hv] at hbudget
      exact ⟨b, hbudget, hlt⟩
    · intro hc _
      omega
    · intro hc _
      omega

/-- Target whose `params` bag is present but empty. -/
def tgtC5 : Target :=
  { inst := "i", target := "http://127.0.0.1:9000", rewrite := "r", params := some {} }

/-- Payload with budget 10 against max_tokens 5. -/
def payC5 : Payload :=
  { thinking := some (jobj [("budget_tokens", jnum 10)])
    max_tokens := some (jnum 5) }

/-- C5 witness: budget 10 against max 5 is reduced to 4. -/
theorem C5_thinking_budget_adjustment_witness :
    (applyTargetParamsToPayload payC5 tgtC5).thinking
      = some (jobj [("budget_tokens", jnum 4)]) := by
  obtain ⟨fs2, h1, _h2, _h3, _h4, hset, _h6⟩ :=
    C5_thinking_budget_adjustment tgtC5 {} payC5 [("budget_tokens", jnum 10)] 10 5
      rfl rfl rfl rfl
  rw [h1, hset (by omega) (by omega)]
  rfl

/-! ## C6: idempotence of the request rewrite -/

/-- The thinking-budget clamp is the identity when every budget it could read
is already within the cap. -/
theorem thinkingBudgetClampStep_noop (params : TargetParams) (q : Payload)
    (hbound : ∀ tb fs b, toPositiveInt params.thinking_budget_max = some tb →
      q.thinking = some (jobj fs) →
      toPositiveInt (jobjGet fs "budget_tokens") = some b → b ≤ tb) :
    thinkingBudgetClampStep params q = q := by
  unfold thinkingBudgetClampStep
  split
  · rfl
  case _ tb htbm =>
    split
    case _ fs hth =>
      split
      case _ b hb =>
        rw [if_neg (by have := hbound tb fs b htbm hth hb; omega)]
      case _ hb => rfl
    case _ hth => rfl

/-- The max-tokens step is the identity when the current value is within the
cap and the default (if configured) finds a value already present. -/
theorem maxTokensStep_noop (params : TargetParams) (q : Payload)
    (hclamp : ∀ mm i, toPositiveInt params.max_tokens_max = some mm →
      toPositiveInt q.max_tokens = some i → i ≤ mm)
    (hdflt : ∀ d, toPositiveInt params.max_tokens_default = some d →
      (toPositiveInt q.max_tokens).isSome = true) :
    maxTokensStep params q = q := by
  unfold maxTokensStep
  dsimp only
  split
  · rename_i d hd hin
    have := hdflt d hd
    rw [hin] at this
    simp at this
  · split
    · rename_i mm im hmm him
      rw [if_neg (by have := hclamp mm im hmm him; omega)]
    · rfl

/-- Writing back the value a field already holds is a no-op. -/
theorem payload_eta_re (p : Payload) (x : Option JVal) (h : p.reasoning_effort = x) :
    ({ p with reasoning_effort := x } : Payload) = p := by
  cases p; subst h; rfl



/-- The reasoning-effort override is the identity when the field already holds
the trimmed override value. -/
theorem reasoningEffortStep_noop (params : TargetParams) (q : Payload)
    (h : ∀ s, params.reasoning_effort = some (jstr s) → (strTrim s != "") = true →
      q.reasoning_effort = some (jstr (strTrim s))) :
    reasoningEffortStep params q = q := by
  unfold reasoningEffortStep
  split
  · rename_i s heq
    split
    · rename_i hs
      exact payload_eta_re q _ (h s heq hs)
    · rfl
  · rfl

/-- The budget-vs-max step is the identity when every budget it could read is
already strictly below `max_tokens`. -/
theorem budgetVsMaxStep_noop (q : Payload)
    (h : ∀ m fs b, toPositiveInt q.max_tokens = some m → q.thinking = some (jobj fs) →
      toPositiveInt (jobjGet fs "budget_tokens") = some b → b < m) :
    budgetVsMaxStep q = q := by
  unfold budgetVsMaxStep
  split
  · rfl
  · rename_i m hm
    split
    · rename_i fs hth
      split
      · rename_i b hb
        rw [if_neg (by have := h m fs b hm hth hb; omega)]
      · rfl
    · rfl

/-- The budget-vs-max step is idempotent: its output budget (if any) is
strictly below the unchanged `max_tokens`. -/
theorem budgetVsMaxStep_idem (q : Payload) :
    budgetVsMaxStep (budgetVsMaxStep q) = budgetVsMaxStep q := by
  apply budgetVsMaxStep_noop
  intro m fs b hm hth hb
  have hmax : (budgetVsMaxStep q).max_tokens = q.max_tokens := (budgetVsMaxStep_frame q).2.1
  rw [hmax] at hm
  unfold budgetVsMaxStep at hth
  rw [hm] at hth
  dsimp only at hth
  split at hth
  · rename_i fs0 hth0
    split at hth
    · rename_i b0 hb0
      split at hth
      · split at hth
        · -- delete branch: budget read must be none
          dsimp only at hth
          have hfs : fs = jobjDelete fs0 "budget_tokens" := by
            have := hth
            simp only [JVal.jobj.injEq, Option.some.injEq] at this
            exact this.symm
          rw [hfs, jobjGet_delete_self] at hb
          simp [toPositiveInt] at hb
        · -- set (m-1) branch
          dsimp only at hth
          have hfs : fs = jobjSet fs0 "budget_tokens" (jnum (m - 1)) := by
            have := hth
            simp only [JVal.jobj.injEq, Option.some.injEq] at this
            exact this.symm
          rename_i hge hm1
          rw [hfs, jobjGet_set_self, toPositiveInt_jnum (m - 1) (by omega)] at hb
          have : m - 1 = b := by simpa using hb
          omega
      · -- b0 < m: unchanged
        rw [hth0] at hth
        have hfs : fs = fs0 := by
          have := hth
          simp only [JVal.jobj.injEq, Option.some.injEq] at this
          exact this.symm
        rename_i hlt
        rw [hfs, hb0] at hb
        have : b0 = b := by simpa using hb
        omega
    · -- budget read none: contradiction with hb
      rw [hth0] at hth
      have hfs : fs = fs0 := by
        have := hth
        simp only [JVal.jobj.injEq, Option.some.injEq] at this
        exact this.symm
      rename_i hnone
      rw [hfs, hnone] at hb
      simp at hb
  · -- thinking not a jobj: hth contradiction
    rename_i hshape
    exact absurd hth (hshape fs)

/-- After the thinking-budget clamp, every readable budget is at most the cap. -/
theorem thinkingBudgetClampStep_bound (params : TargetParams) (q : Payload)
    (tb : Int) (htb : toPositiveInt params.thinking_budget_max = some tb) :
    ∀ fs b, (thinkingBudgetClampStep params q).thinking = some (jobj fs) →
      toPositiveInt (jobjGet fs "budget_tokens") = some b → b ≤ tb := by
  intro fs b hth hb
  unfold thinkingBudgetClampStep at hth
  rw [htb] at hth
  dsimp only at hth
  split at hth
  · rename_i fs0 hth0
    split at hth
    · rename_i b0 hb0
      split at hth
      · -- clamped to tb
        dsimp only at hth
        have hfs : fs = jobjSet fs0 "budget_tokens" (jnum tb) := by
          have := hth
          simp only [JVal.jobj.injEq, Option.some.injEq] at this
          exact this.symm
        rw [hfs, jobjGet_set_self, toPositiveInt_jnum tb (toPositiveInt_pos htb)] at hb
        have : tb = b := by simpa using hb
        omega
      · rename_i hle
        rw [hth0] at hth
        have hfs : fs = fs0 := by
          have := hth
          simp only [JVal.jobj.injEq, Option.some.injEq] at this
          exact this.symm
        rw [hfs, hb0] at hb
        have : b0 = b := by simpa using hb
        omega
    · rename_i hnone
      rw [hth0] at hth
      have hfs : fs = fs0 := by
        have := hth
        simp only [JVal.jobj.injEq, Option.some.injEq] at this
        exact this.symm
      rw [hfs, hnone] at hb
      simp at hb
  · rename_i hshape
    exact absurd hth (hshape fs)

/-- The positive-integer reading of `max_tokens` after step 3, as a function
of the cap, the initial value, and the default. -/
theorem maxTokensStep_max_char (params : TargetParams) (p : Payload) :
    toPositiveInt (maxTokensStep params p).max_tokens =
      match toPositiveInt params.max_tokens_max, toPositiveInt p.max_tokens,
            toPositiveInt params.max_tokens_default with
      | some mm, some im, _ => some (min im mm)
      | none, some im, _ => some im
      | _, none, some d => some d
      | _, none, none => none := by
  unfold maxTokensStep
  dsimp only
  cases hmm : toPositiveInt params.max_tokens_max with
  | some mm =>
    cases him : toPositiveInt p.max_tokens with
    | some im =>
      cases hd : toPositiveInt params.max_tokens_default with
      | some d =>
        dsimp only
        by_cases hgt : im > mm
        · rw [if_pos hgt]
          dsimp only
          rw [toPositiveInt_jnum mm (toPositiveInt_pos hmm)]
          congr 1
          omega
        · rw [if_neg hgt, him]
          congr 1
          omega
      | none =>
        dsimp only
        by_cases hgt : im > mm
        · rw [if_pos hgt]
          dsimp only
          rw [toPositiveInt_jnum mm (toPositiveInt_pos hmm)]
          congr 1
          omega
        · rw [if_neg hgt, him]
          congr 1
          omega
    | none =>
      cases hd : toPositiveInt params.max_tokens_default with
      | some d =>
        dsimp only
        exact toPositiveInt_jnum d (toPositiveInt_pos hd)
      | none =>
        dsimp only
        exact him
  | none =>
    cases him : toPositiveInt p.max_tokens with
    | some im =>
      cases hd : toPositiveInt params.max_tokens_default with
      | some d => dsimp only; exact him
      | none => dsimp only; exact him
    | none =>
      cases hd : toPositiveInt params.max_tokens_default with
      | some d =>
        dsimp only
        exact toPositiveInt_jnum d (toPositiveInt_pos hd)
      | none =>
        dsimp only
        exact him

/-- The budget-vs-max step preserves an upper bound on the readable budget. -/
theorem budgetVsMaxStep_budget_bound (q : Payload) (tb : Int)
    (h : ∀ fs b, q.thinking = some (jobj fs) →
      toPositiveInt (jobjGet fs "budget_tokens") = some b → b ≤ tb) :
    ∀ fs b, (budgetVsMaxStep q).thinking = some (jobj fs) →
      toPositiveInt (jobjGet fs "budget_tokens") = some b → b ≤ tb := by
  intro fs b hth hb
  unfold budgetVsMaxStep at hth
  split at hth
  · exact h fs b hth hb
  · rename_i m hm
    split at hth
    · rename_i fs0 hth0
      split at hth
      · rename_i b0 hb0
        split at hth
        · split at hth
          · -- delete branch: budget read must be none
            dsimp only at hth
            have hfs : fs = jobjDelete fs0 "budget_tokens" := by
              have := hth
              simp only [JVal.jobj.injEq, Option.some.injEq] at this
              exact this.symm
            rw [hfs, jobjGet_delete_self] at hb
            simp [toPositiveInt] at hb
          · -- set (m-1) branch
            dsimp only at hth
            have hfs : fs = jobjSet fs0 "budget_tokens" (jnum (m - 1)) := by
              have := hth
              simp only [JVal.jobj.injEq, Option.some.injEq] at this
              exact this.symm
            rename_i hge hm1
            rw [hfs, jobjGet_set_self, toPositiveInt_jnum (m - 1) (by omega)] at hb
            have hb' : m - 1 = b := by simpa using hb
            have hb0le : b0 ≤ tb := h fs0 b0 hth0 hb0
            omega
        · rename_i hlt
          rw [hth0] at hth
          have hfs : fs = fs0 := by
            have := hth
            simp only [JVal.jobj.injEq, Option.some.injEq] at this
            exact this.symm
          rw [hfs] at hb
          exact h fs0 b hth0 hb
      · rename_i hnone
        rw [hth0] at hth
        have hfs : fs = fs0 := by
          have := hth
          simp only [JVal.jobj.injEq, Option.some.injEq] at this
          exact this.symm
        rw [hfs, hnone] at hb
        simp at hb
    · rename_i hshape
      exact absurd hth (hshape fs)

/-- Value of the `reasoning_effort` field after step 1 when the override fires. -/
theorem reasoningEffortStep_re_val (params : TargetParams) (p : Payload) (s : String)
    (heq : params.reasoning_effort = some (jstr s)) (hs : (strTrim s != "") = true) :
    (reasoningEffortStep params p).reasoning_effort = some (jstr (strTrim s)) := by
  unfold reasoningEffortStep
  rw [heq]
  dsimp only
  rw [if_pos hs]

/-- `reasoning_effort` after the full pipeline equals its value after step 1. -/
theorem preBudget_re (params : TargetParams) (p : Payload) :
    (budgetVsMaxStep (preBudgetSteps params p)).reasoning_effort
      = (reasoningEffortStep params p).reasoning_effort := by
  unfold preBudgetSteps
  rw [(budgetVsMaxStep_frame _).1, (maxTokensStep_frame _ _).1,
    (thinkingBudgetClampStep_frame _ _).1]

/-- `thinking` after steps 1-3 equals its value after step 2. -/
theorem preBudget_thinking (params : TargetParams) (p : Payload) :
    (preBudgetSteps params p).thinking
      = (thinkingBudgetClampStep params (reasoningEffortStep params p)).thinking := by
  unfold preBudgetSteps
  rw [(maxTokensStep_frame _ _).2.1]

/-- `max_tokens` after the full pipeline equals its value after step 3. -/
theorem preBudget_max (params : TargetParams) (p : Payload) :
    (budgetVsMaxStep (preBudgetSteps params p)).max_tokens
      = (maxTokensStep params
          (thinkingBudgetClampStep params (reasoningEffortStep params p))).max_tokens := by
  unfold preBudgetSteps
  rw [(budgetVsMaxStep_frame _).2.1]

/-- Core idempotence: re-running all four rewriter steps on an already
rewritten payload changes nothing, provided the configuration does not pair an
absent/non-positive initial `max_tokens` with a default exceeding the cap. -/
theorem applyTargetParamsToPayload_idem (p : Payload) (target : Target)
    (hsafe : ∀ params d mm, target.params = some params →
      toPositiveInt p.max_tokens = none →
      toPositiveInt params.max_tokens_default = some d →
      toPositiveInt params.max_tokens_max = some mm → d ≤ mm) :
    applyTargetParamsToPayload (applyTargetParamsToPayload p target) target
      = applyTargetParamsToPayload p target := by
  cases hparams : target.params with
  | none =>
    unfold applyTargetParamsToPayload
    rw [hparams]
  | some params =>
    have hr : applyTargetParamsToPayload p target
        = budgetVsMaxStep (preBudgetSteps params p) := by
      unfold applyTargetParamsToPayload
      rw [hparams]
    -- the three pre-budget steps are no-ops on the already-rewritten payload
    have hA : reasoningEffortStep params (budgetVsMaxStep (preBudgetSteps params p))
        = budgetVsMaxStep (preBudgetSteps params p) := by
      apply reasoningEffortStep_noop
      intro s heq hs
      rw [preBudget_re]
      exact reasoningEffortStep_re_val params p s heq hs
    have hB : thinkingBudgetClampStep params (budgetVsMaxStep (preBudgetSteps params p))
        = budgetVsMaxStep (preBudgetSteps params p) := by
      apply thinkingBudgetClampStep_noop
      intro tb fs b htb hth hb
      refine budgetVsMaxStep_budget_bound (preBudgetSteps params p) tb ?_ fs b hth hb
      intro fs2 b2 hth2 hb2
      rw [preBudget_thinking] at hth2
      exact thinkingBudgetClampStep_bound params (reasoningEffortStep params p) tb htb
        fs2 b2 hth2 hb2
    have hmaxval : toPositiveInt (budgetVsMaxStep (preBudgetSteps params p)).max_tokens
        = toPositiveInt (maxTokensStep params
            (thinkingBudgetClampStep params (reasoningEffortStep params p))).max_tokens := by
      rw [preBudget_max]
    have hpmax : (thinkingBudgetClampStep params (reasoningEffortStep params p)).max_tokens
        = p.max_tokens := by
      rw [(thinkingBudgetClampStep_frame _ _).2.1, (reasoningEffortStep_frame _ _).2.1]
    have hC : maxTokensStep params (budgetVsMaxStep (preBudgetSteps params p))
        = budgetVsMaxStep (preBudgetSteps params p) := by
      apply maxTokensStep_noop
      · intro mm i hmm hi
        rw [hmaxval, maxTokensStep_max_char, hpmax, hmm] at hi
        cases him : toPositiveInt p.max_tokens with
        | some im =>
          rw [him] at hi
          dsimp only at hi
          have : min im mm = i := by simpa using hi
          omega
        | none =>
          rw [him] at hi
          cases hd : toPositiveInt params.max_tokens_default with
          | some d =>
            rw [hd] at hi
            dsimp only at hi
            have hdi : d = i := by simpa using hi
            have := hsafe params d mm hparams him hd hmm
            omega
          | none =>
            rw [hd] at hi
            simp at hi
      · intro d hd
        rw [hmaxval, maxTokensStep_max_char, hpmax, hd]
        cases him : toPositiveInt p.max_tokens with
        | some im =>
          cases hmm : toPositiveInt params.max_tokens_max with
          | some mm => simp
          | none => simp
        | none =>
          cases hmm : toPositiveInt params.max_tokens_max with
          | some mm => simp
          | none => simp
    have key : ∀ r, r = budgetVsMaxStep (preBudgetSteps params p) →
        budgetVsMaxStep (preBudgetSteps params r) = r := by
      intro r hrd
      unfold preBudgetSteps
      rw [hrd, hA, hB, hC]
      exact budgetVsMaxStep_idem _
    conv_lhs => rw [hr]
    unfold applyTargetParamsToPayload
    rw [hparams]
    dsimp only
    exact key _ rfl

/-- Step 1 commutes with overwriting `model` and `metadata`. -/
theorem reasoningEffortStep_update (params : TargetParams) (p : Payload)
    (mo me : Option JVal) :
    reasoningEffortStep params { p with model := mo, metadata := me }
      = { reasoningEffortStep params p with model := mo, metadata := me } := by
  cases p
  unfold reasoningEffortStep
  dsimp only
  split
  · split <;> rfl
  · rfl

/-- Step 2 commutes with overwriting `model` and `metadata`. -/
theorem thinkingBudgetClampStep_update (params : TargetParams) (p : Payload)
    (mo me : Option JVal) :
    thinkingBudgetClampStep params { p with model := mo, metadata := me }
      = { thinkingBudgetClampStep params p with model := mo, metadata := me } := by
  cases p
  unfold thinkingBudgetClampStep
  dsimp only
  split <;> first
    | rfl
    | (split <;> first
        | rfl
        | (split <;> first
            | rfl
            | (split <;> rfl)))

/-- Step 3 commutes with overwriting `model` and `metadata`. -/
theorem maxTokensStep_update (params : TargetParams) (p : Payload)
    (mo me : Option JVal) :
    maxTokensStep params { p with model := mo, metadata := me }
      = { maxTokensStep params p with model := mo, metadata := me } := by
  cases p
  unfold maxTokensStep
  dsimp only
  split <;> first
    | rfl
    | (split <;> first
        | rfl
        | (split <;> rfl))

/-- Step 4 commutes with overwriting `model` and `metadata`. -/
theorem budgetVsMaxStep_update (p : Payload) (mo me : Option JVal) :
    budgetVsMaxStep { p with model := mo, metadata := me }
      = { budgetVsMaxStep p with model := mo, metadata := me } := by
  cases p
  unfold budgetVsMaxStep
  dsimp only
  split <;> first
    | rfl
    | (split <;> first
        | rfl
        | (split <;> first
            | rfl
            | (split <;> first
                | rfl
                | (split <;> rfl))))

/-- The whole parameter rewriter commutes with overwriting `model` and
`metadata` (neither field is read by any step). -/
theorem applyTargetParamsToPayload_update (p : Payload) (target : Target)
    (mo me : Option JVal) :
    applyTargetParamsToPayload { p with model := mo, metadata := me } target
      = { applyTargetParamsToPayload p target with model := mo, metadata := me } := by
  unfold applyTargetParamsToPayload preBudgetSteps
  split
  · rfl
  · rw [reasoningEffortStep_update, thinkingBudgetClampStep_update, maxTokensStep_update,
      budgetVsMaxStep_update]

/-- The parameter rewriter never changes `model`. -/
theorem applyTargetParamsToPayload_model (p : Payload) (target : Target) :
    (applyTargetParamsToPayload p target).model = p.model := by
  unfold applyTargetParamsToPayload preBudgetSteps
  split
  · rfl
  · rw [(budgetVsMaxStep_frame _).2.2.1, (maxTokensStep_frame _ _).2.2.1,
      (thinkingBudgetClampStep_frame _ _).2.2.1, (reasoningEffortStep_frame _ _).2.2.1]

/-- The parameter rewriter never changes `metadata`. -/
theorem applyTargetParamsToPayload_metadata (p : Payload) (target : Target) :
    (applyTargetParamsToPayload p target).metadata = p.metadata := by
  unfold applyTargetParamsToPayload preBudgetSteps
  split
  · rfl
  · rw [(budgetVsMaxStep_frame _).2.2.2, (maxTokensStep_frame _ _).2.2.2,
      (thinkingBudgetClampStep_frame _ _).2.2.2, (reasoningEffortStep_frame _ _).2.2.2]

/-- Writing back the `model` and `metadata` values a payload already holds is
a no-op. -/
theorem payload_eta_mm (p : Payload) (mo me : Option JVal)
    (hmo : p.model = mo) (hme : p.metadata = me) :
    ({ p with model := mo, metadata := me } : Payload) = p := by
  cases p; subst hmo; subst hme; rfl

/-- Overwriting `model` with the value already held collapses to the
`metadata`-only update. -/
theorem payload_collapse (p : Payload) (mo me : Option JVal) (hmo : p.model = mo) :
    ({ p with model := mo, metadata := me } : Payload) = { p with metadata := me } := by
  cases p; subst hmo; rfl

/-- C6: the request rewrite `cloneRequestPayloadForTarget` applied twice with
the same target equals one application, for every payload and target EXCEPT
the configurations excluded by the amended hypothesis: when the body has no
positive-integer `max_tokens` and the target params set a `max_tokens_default`
exceeding `max_tokens_max`, the first pass inserts the default unclamped (the
default fires after the clamp, which only reads the initial value) and the
second pass clamps it, so idempotence fails there and holds everywhere else. -/
theorem C6_rewrite_idempotent_amended (reqModel : String) (target : Target) (body : Payload)
    (hsafe : ∀ params d mm, target.params = some params →
      toPositiveInt body.max_tokens = none →
      toPositiveInt params.max_tokens_default = some d →
      toPositiveInt params.max_tokens_max = some mm → d ≤ mm) :
    cloneRequestPayloadForTarget reqModel target
        (cloneRequestPayloadForTarget reqModel target body)
      = cloneRequestPayloadForTarget reqModel target body := by
  unfold cloneRequestPayloadForTarget
  dsimp only
  by_cases hreq : (reqModel != "") = true
  · repeat rw [if_pos hreq]
    have hidem := applyTargetParamsToPayload_idem
      { body with model := some (jstr (rewrittenModelFor reqModel target)) } target hsafe
    have hmod : (applyTargetParamsToPayload
        { body with model := some (jstr (rewrittenModelFor reqModel target)) } target).model
        = some (jstr (rewrittenModelFor reqModel target)) := by
      rw [applyTargetParamsToPayload_model]
    set r := applyTargetParamsToPayload
      { body with model := some (jstr (rewrittenModelFor reqModel target)) } target
    by_cases hprov : (target.provider == some "minimax") = true
    · repeat rw [if_pos hprov]
      show { applyTargetParamsToPayload
              { r with
                  model := some (jstr (rewrittenModelFor reqModel target)),
                  metadata := none }
              target with
            metadata := none }
          = { r with metadata := none }
      rw [applyTargetParamsToPayload_update r target
        (some (jstr (rewrittenModelFor reqModel target))) none, hidem]
      exact payload_collapse r (some (jstr (rewrittenModelFor reqModel target))) none hmod
    · repeat rw [if_neg hprov]
      show applyTargetParamsToPayload
            { r with
                model := some (jstr (rewrittenModelFor reqModel target)),
                metadata := r.metadata }
            target
          = r
      rw [applyTargetParamsToPayload_update r target
        (some (jstr (rewrittenModelFor reqModel target))) r.metadata, hidem]
      exact payload_eta_mm r (some (jstr (rewrittenModelFor reqModel target))) r.metadata hmod rfl
  · repeat rw [if_neg hreq]
    have hidem := applyTargetParamsToPayload_idem body target hsafe
    set r := applyTargetParamsToPayload body target
    by_cases hprov : (target.provider == some "minimax") = true
    · repeat rw [if_pos hprov]
      show { applyTargetParamsToPayload
              { r with
                  model := r.model,
                  metadata := none }
              target with
            metadata := none }
          = { r with metadata := none }
      rw [applyTargetParamsToPayload_update r target r.model none, hidem]
    · repeat rw [if_neg hprov]
      exact hidem

/-- A target whose `max_tokens_default` (7) exceeds its `max_tokens_max` (5). -/
def tgtC6 : Target :=
  { inst := "i", target := "http://127.0.0.1:9000", rewrite := "m2",
    params := some { max_tokens_max := some (jnum 5), max_tokens_default := some (jnum 7) } }

/-- C6 counterexample: with `max_tokens_default = 7 > 5 = max_tokens_max` and a
body without `max_tokens`, the first rewrite yields `max_tokens = 7` but the
second clamps it to 5, so the rewrite is not idempotent as claimed. -/
theorem C6_clamp_default_counterexample :
    (cloneRequestPayloadForTarget "m1" tgtC6 {}).max_tokens = some (jnum 7) ∧
    (cloneRequestPayloadForTarget "m1" tgtC6
        (cloneRequestPayloadForTarget "m1" tgtC6 {})).max_tokens = some (jnum 5) ∧
    cloneRequestPayloadForTarget "m1" tgtC6 (cloneRequestPayloadForTarget "m1" tgtC6 {})
      ≠ cloneRequestPayloadForTarget "m1" tgtC6 {} := by
  refine ⟨rfl, rfl, ?_⟩
  intro h
  have h5 : (cloneRequestPayloadForTarget "m1" tgtC6
      (cloneRequestPayloadForTarget "m1" tgtC6 {})).max_tokens = some (jnum 5) := rfl
  have h7 : (cloneRequestPayloadForTarget "m1" tgtC6 {}).max_tokens = some (jnum 7) := rfl
  rw [h, h7] at h5
  simp only [Option.some.injEq, JVal.jnum.injEq] at h5
  omega

/-- C6 witness: a body that already carries a positive `max_tokens` satisfies
the amended hypothesis, and the rewrite is idempotent on it. -/
theorem C6_rewrite_idempotent_amended_witness :
    cloneRequestPayloadForTarget "m1" tgtC6
        (cloneRequestPayloadForTarget "m1" tgtC6 { max_tokens := some (jnum 9) })
      = cloneRequestPayloadForTarget "m1" tgtC6 { max_tokens := some (jnum 9) } :=
  C6_rewrite_idempotent_amended "m1" tgtC6 { max_tokens := some (jnum 9) }
    (fun _params _d _mm _hp hnone _hd _hmm => absurd hnone (by decide))
